import Mathlib

/-!
# uvChecker: UV overlap and UDIM border checks

A shallow embedding of `uvChecker/src/uvChecker.cpp`.

Modelling conventions.

* A `float` coordinate of the mesh is the rational value of that float.  The
  UDIM pass only takes `floor` and compares, which is exact.  The area of line
  153 is computed in binary32: every subtraction, product, sum and the
  halving is rounded to nearest, ties to even, with subnormals, overflow to
  infinity and NaN (`F32`).  The passes take the arithmetic as a parameter so
  that the same loops can also be read over exact rationals (`exactArith`);
  the member functions of the command are the `binary32` instances.
* The Maya SDK is not part of the repository.  A mesh is the record of what
  `MItMeshPolygon` and `MFnMesh` expose; an SDK call that reports a failure
  status returns `none` and leaves its output arguments as they were.
* The command ignores the status of every accessor call, so each output
  variable is modelled by `Option.getD` over its previous contents.
* Locals the source declares without an initialiser keep the contents of the
  previous iteration of their loop; before the first iteration they hold the
  contents of the `Indeterminate` record.
* `int` counters never leave the range of the vertex and triangle counts, so
  they are unbounded integers here.
-/

namespace MiMaya

/-! ## Maya SDK: statuses, mesh snapshot, accessors -/

/-- Status codes of `MStatus` used by the command. -/
inductive MStatus where
  | kSuccess
  | kFailure
  deriving DecidableEq, Repr

/-- Modelled from the spec: `uvPoint.h` is not in the repository; a UV point is
the coordinate pair (u, v), built by `UVPoint(u, v)` and read through its
members `u` and `v`. -/
structure UVPoint where
  u : ℚ
  v : ℚ
  deriving DecidableEq

/-- One polygon as seen through `MItMeshPolygon`. -/
structure Polygon where
  /-- Face id, `index()`. -/
  index : Nat
  /-- Object-relative vertex ids around the loop, `getVertices`. -/
  vertices : List Int
  /-- UV id assigned to each loop position; `none` when the position is unmapped. -/
  uvIndices : List (Option Int)
  /-- Triangulation, each triangle as three object-relative vertex ids;
  `none` when the face cannot be triangulated. -/
  triangles : Option (List (Int × Int × Int))

/-- The mesh behind `mDagPath`. -/
structure Mesh where
  /-- Full DAG path, `fullPathName()`. -/
  fullPathName : String
  /-- Faces in iteration order of `MItMeshPolygon`. -/
  polygons : List Polygon
  /-- UV table of the current UV set, indexed by UV id. -/
  uvTable : List (ℚ × ℚ)

/-- Accessor `MItMeshPolygon::polygonVertexCount`: the length of the vertex loop. -/
def Polygon.polygonVertexCount (p : Polygon) : Int :=
  (p.vertices.length : Int)

/-- Accessor `MItMeshPolygon::getVertices`: the vertex ids around the loop. -/
def Polygon.getVertices (p : Polygon) : List Int :=
  p.vertices

/-- Accessor `MItMeshPolygon::numTriangles(int&)`: fails on a face without
triangulation. -/
def Polygon.numTriangles (p : Polygon) : Option Int :=
  p.triangles.map (fun ts => (ts.length : Int))

/-- Accessor `MItMeshPolygon::getTriangle(i, points, vertexList)`: the vertex
list of triangle `i`. -/
def Polygon.getTriangle (p : Polygon) (i : Int) : Option (List Int) :=
  match p.triangles with
  | none => none
  | some ts =>
    if i < 0 then none
    else (ts.get? i.toNat).map (fun t => [t.1, t.2.1, t.2.2])

/-- Accessor `MItMeshPolygon::getUVIndex(vertex, index)`: the UV id at a loop
position. -/
def Polygon.getUVIndex (p : Polygon) (vertex : Int) : Option Int :=
  if vertex < 0 then none else (p.uvIndices.get? vertex.toNat).join

/-- Accessor `MFnMesh::getUV(uvId, u, v)`: the coordinate of a UV id. -/
def Mesh.getUV (m : Mesh) (uvId : Int) : Option (ℚ × ℚ) :=
  if uvId < 0 then none else m.uvTable.get? uvId.toNat

/-- Accessor `MItMeshPolygon::getUVIndex(vertex, index, u, v)`: the UV id at a
loop position together with its coordinate. -/
def Mesh.getUVIndex (m : Mesh) (p : Polygon) (vertex : Int) : Option (Int × ℚ × ℚ) :=
  match p.getUVIndex vertex with
  | none => none
  | some uvId =>
    match m.getUV uvId with
    | none => none
    | some uv => some (uvId, uv.1, uv.2)

/-- Modelled from the spec: `MString::set` belongs to the Maya SDK; identifiers
are `<meshPath>.f[<index>]` with the index in decimal. -/
def MString.set (value : Int) : String :=
  toString value

/-! ## `std::map<int, int>` and `std::set<int>` -/

/-- A `std::map<int, int>`. -/
def StdMap : Type := Int → Option Int

/-- The map after `clear()`, also a freshly constructed one. -/
def StdMap.empty : StdMap := fun _ => none

/-- Assignment `m[k] = v`. -/
def StdMap.assign (m : StdMap) (k v : Int) : StdMap :=
  fun x => if x = k then some v else m x

/-- Subscript `m[k]` read as a value: an absent key is first inserted with
value `0`. -/
def StdMap.index (m : StdMap) (k : Int) : Int × StdMap :=
  match m k with
  | some v => (v, m)
  | none => (0, StdMap.assign m k 0)

/-- Member `std::set<int>::insert` on the ascending list of members. -/
def StdSet.insert (x : Int) : List Int → List Int
  | [] => [x]
  | y :: ys =>
    if x < y then x :: y :: ys
    else if x = y then y :: ys
    else y :: StdSet.insert x ys

/-! ## binary32 arithmetic -/

/-- A value of type `float`: a finite value, an infinity, or NaN.  The two
zeros are not told apart; no operation of the command distinguishes them. -/
inductive F32 where
  | finite (q : ℚ)
  | inf (negative : Bool)
  | nan
  deriving DecidableEq

/-- The power `2 ^ k` for an integer `k`. -/
def F32.pow2 (k : Int) : ℚ :=
  match k with
  | Int.ofNat n => ((2 ^ n : Nat) : ℚ)
  | Int.negSucc n => 1 / ((2 ^ (n + 1) : Nat) : ℚ)

/-- Number of binary digits of `n`, with `fuel` steps available. -/
def F32.bitLengthAux : Nat → Nat → Nat
  | 0, _ => 0
  | fuel + 1, n => if n = 0 then 0 else F32.bitLengthAux fuel (n / 2) + 1

/-- Number of binary digits of `n`. -/
def F32.bitLength (n : Nat) : Nat :=
  F32.bitLengthAux n n

/-- Binary exponent used to round `q`: `floor (log2 |q|)`, and `-126` for
values in the subnormal range. -/
def F32.exponent (q : ℚ) : Int :=
  let e0 : Int := (F32.bitLength q.num.natAbs : Int) - (F32.bitLength q.den : Int)
  let e : Int := if F32.pow2 e0 ≤ |q| then e0 else e0 - 1
  max e (-126)

/-- Distance between neighbouring binary32 values around `q`. -/
def F32.ulp (q : ℚ) : ℚ :=
  F32.pow2 (F32.exponent q - 23)

/-- Nearest integer, ties to the even one. -/
def F32.roundHalfEven (x : ℚ) : Int :=
  if x - (Int.floor x : ℚ) < 1 / 2 then Int.floor x
  else if 1 / 2 < x - (Int.floor x : ℚ) then Int.floor x + 1
  else if Int.floor x % 2 = 0 then Int.floor x
  else Int.floor x + 1

/-- Nearest value with a 24-bit significand (exponent unbounded above), ties
to even. -/
def F32.roundNearest (q : ℚ) : ℚ :=
  (F32.roundHalfEven (q / F32.ulp q) : ℚ) * F32.ulp q

/-- Largest finite binary32 value, `(2 ^ 24 - 1) * 2 ^ 104`. -/
def F32.maxFinite : ℚ :=
  (2 ^ 24 - 1) * 2 ^ 104

/-- The binary32 result of an operation whose exact result is `q`. -/
def F32.ofRat (q : ℚ) : F32 :=
  if F32.maxFinite < |F32.roundNearest q| then F32.inf (decide (q < 0))
  else F32.finite (F32.roundNearest q)

/-- Negation. -/
def F32.neg : F32 → F32
  | F32.finite q => F32.finite (-q)
  | F32.inf s => F32.inf (!s)
  | F32.nan => F32.nan

/-- Sum of two floats. -/
def F32.add : F32 → F32 → F32
  | F32.finite a, F32.finite b => F32.ofRat (a + b)
  | F32.finite _, F32.inf s => F32.inf s
  | F32.inf s, F32.finite _ => F32.inf s
  | F32.inf s, F32.inf t => if s = t then F32.inf s else F32.nan
  | _, _ => F32.nan

/-- Difference of two floats. -/
def F32.sub (x y : F32) : F32 :=
  F32.add x (F32.neg y)

/-- Product of two floats. -/
def F32.mul : F32 → F32 → F32
  | F32.finite a, F32.finite b => F32.ofRat (a * b)
  | F32.finite a, F32.inf s => if a = 0 then F32.nan else F32.inf (s != decide (a < 0))
  | F32.inf s, F32.finite b => if b = 0 then F32.nan else F32.inf (s != decide (b < 0))
  | F32.inf s, F32.inf t => F32.inf (s != t)
  | _, _ => F32.nan

/-- Quotient by two, the `/ 2` of line 153. -/
def F32.half : F32 → F32
  | F32.finite a => F32.ofRat (a / 2)
  | F32.inf s => F32.inf s
  | F32.nan => F32.nan

/-- The comparison `x < 0`. -/
def F32.isNegative : F32 → Bool
  | F32.finite a => decide (a < 0)
  | F32.inf s => s
  | F32.nan => false

/-- The comparison `0 < x`. -/
def F32.isPositive : F32 → Bool
  | F32.finite a => decide (0 < a)
  | F32.inf s => !s
  | F32.nan => false

/-- The arithmetic line 153 is evaluated in: the type of the intermediate
values, how a coordinate enters it, the operations and the test `area < 0`. -/
structure FloatArith where
  F : Type
  ofCoord : ℚ → F
  sub : F → F → F
  mul : F → F → F
  add : F → F → F
  half : F → F
  isNegative : F → Bool

/-- The arithmetic of the source: `float`.  A coordinate read from the mesh is
a `float` already and enters unchanged. -/
def binary32 : FloatArith :=
  ⟨F32, F32.finite, F32.sub, F32.mul, F32.add, F32.half, F32.isNegative⟩

/-- Exact arithmetic over the rationals. -/
def exactArith : FloatArith :=
  ⟨ℚ, fun q => q, fun x y => x - y, fun x y => x * y, fun x y => x + y,
    fun x => x / 2, fun x => decide (x < 0)⟩

/-! ## Command state -/

/-- Locals of the face loop of `findUdimIntersections` (lines 181-183). -/
structure UdimLocals where
  currentIndex : Int
  nextIndex : Int
  u1 : ℚ
  v1 : ℚ
  u2 : ℚ
  v2 : ℚ

/-- The local array `UVPoint uvPointArray[3]`. -/
structure UVPointArray where
  p0 : UVPoint
  p1 : UVPoint
  p2 : UVPoint

/-- Contents, on entry to a member function, of the variables the source
declares without an initialiser, and what the default constructor of the
absent `uvPoint.h` does. -/
structure Indeterminate where
  numTriangles : Int
  u : ℚ
  v : ℚ
  uvPointArray : UVPointArray
  /-- The point `UVPoint()` builds; `none` when the default constructor leaves
  the members as they are, so that `uvPointArray` keeps its contents. -/
  uvPointDefault : Option UVPoint
  udim : UdimLocals

/-- Fields of the command object. -/
structure UvChecker where
  mDagPath : Mesh
  verbose : Bool
  checkNumber : Nat

/-- What a member function hands back: the returned status and the argument of
`MPxCommand::setResult` when it was called. -/
structure Outcome where
  status : MStatus
  result : Option (List String)
  deriving DecidableEq

/-- The identifier `fullPathName() + ".f[" + index + "]"`. -/
def componentName (mesh : Mesh) (index : Int) : String :=
  mesh.fullPathName ++ ".f[" ++ MString.set index ++ "]"

/-! ## `UvChecker::findUdimIntersections` -/

/-- Body of the loop over the loop positions of one face (lines 185-202). -/
def udimEdge (mesh : Mesh) (poly : Polygon) (vCount : Int)
    (st : UdimLocals × List Int) (i : Nat) : UdimLocals × List Int :=
  let currentIndex := (poly.getUVIndex (i : Int)).getD st.1.currentIndex
  let nextIndex :=
    (if (i : Int) = vCount - 1 then poly.getUVIndex 0
     else poly.getUVIndex ((i : Int) + 1)).getD st.1.nextIndex
  let uv1 := (mesh.getUV currentIndex).getD (st.1.u1, st.1.v1)
  let uv2 := (mesh.getUV nextIndex).getD (st.1.u2, st.1.v2)
  let locals : UdimLocals := ⟨currentIndex, nextIndex, uv1.1, uv1.2, uv2.1, uv2.2⟩
  if Int.floor uv1.1 = Int.floor uv2.1 ∧ Int.floor uv1.2 = Int.floor uv2.2 then
    (locals, st.2)
  else
    (locals, StdSet.insert nextIndex (StdSet.insert currentIndex st.2))

/-- Body of the loop over the faces (lines 178-203): the locals and `indexSet`
after the face.  The locals enter a face with the contents the previous face
left in them. -/
def udimFace (mesh : Mesh) (st : UdimLocals × List Int) (poly : Polygon) :
    UdimLocals × List Int :=
  let vCount := poly.polygonVertexCount
  (List.range vCount.toNat).foldl (udimEdge mesh poly vCount) st

/-- The set `indexSet` after the loop over the faces. -/
def udimIndexSet (ind : Indeterminate) (mesh : Mesh) : List Int :=
  (mesh.polygons.foldl (udimFace mesh) (ind.udim, [])).2

/-- The array `indexArray` filled from the set in iteration order (lines 205-208). -/
def udimIndexArray (ind : Indeterminate) (mesh : Mesh) : List Int :=
  (udimIndexSet ind mesh).foldl (fun indexArray x => indexArray ++ [x]) []

/-- The formatting loop shared in shape by both passes (lines 210-217). -/
def formatIndices (mesh : Mesh) (indexArray : List Int) : List String :=
  indexArray.foldl (fun resultArray n => resultArray ++ [componentName mesh n]) []

/-- Member function `UvChecker::findUdimIntersections` (lines 169-221). -/
def UvChecker.findUdimIntersections (ind : Indeterminate) (self : UvChecker) : Outcome :=
  let indexArray := udimIndexArray ind self.mDagPath
  let resultArray := formatIndices self.mDagPath indexArray
  ⟨MStatus.kSuccess, some resultArray⟩

/-! ## `UvChecker::findOverlaps` -/

/-- Assignment `uvPointArray[n] = point`.  Vertex lists of `getTriangle` hold three ids,
so `n` stays below three. -/
def UVPointArray.set (a : UVPointArray) (n : Nat) (point : UVPoint) : UVPointArray :=
  match n with
  | 0 => ⟨point, a.p1, a.p2⟩
  | 1 => ⟨a.p0, point, a.p2⟩
  | 2 => ⟨a.p0, a.p1, point⟩
  | _ => a

/-- Line 153 in the arithmetic `ar`:
`((Ax * (By - Cy)) + (Bx * (Cy - Ay)) + (Cx * (Ay - By))) / 2`. -/
def triangleAreaWith (ar : FloatArith) (a : UVPointArray) : ar.F :=
  ar.half
    (ar.add
      (ar.add
        (ar.mul (ar.ofCoord a.p0.u) (ar.sub (ar.ofCoord a.p1.v) (ar.ofCoord a.p2.v)))
        (ar.mul (ar.ofCoord a.p1.u) (ar.sub (ar.ofCoord a.p2.v) (ar.ofCoord a.p0.v))))
      (ar.mul (ar.ofCoord a.p2.u) (ar.sub (ar.ofCoord a.p0.v) (ar.ofCoord a.p1.v))))

/-- Line 153 as the source evaluates it, in binary32. -/
def triangleArea (a : UVPointArray) : F32 :=
  triangleAreaWith binary32 a

/-- Variables live in the loop over the corners of one triangle. -/
structure CornerState where
  vtxMap : StdMap
  u : ℚ
  v : ℚ
  uvPointArray : UVPointArray

/-- Body of the loop over the corners (lines 140-143). -/
def cornerStep (mesh : Mesh) (poly : Polygon) (st : CornerState) (n : Nat)
    (vertexId : Int) : CornerState :=
  let looked := StdMap.index st.vtxMap vertexId
  let localIndex := looked.1
  let uv : ℚ × ℚ :=
    match mesh.getUVIndex poly localIndex with
    | some r => (r.2.1, r.2.2)
    | none => (st.u, st.v)
  ⟨looked.2, uv.1, uv.2, st.uvPointArray.set n ⟨uv.1, uv.2⟩⟩

/-- The loop over `intArray` from position `n` on (lines 139-144). -/
def cornerLoop (mesh : Mesh) (poly : Polygon) : List Int → Nat → CornerState → CornerState
  | [], _, st => st
  | x :: xs, n, st => cornerLoop mesh poly xs (n + 1) (cornerStep mesh poly st n x)

/-- Variables live in the loop over the triangles of one face.  `u`, `v` and
`uvPointArray` are declared inside the loop body without an initialiser and
enter an iteration with the contents the previous one left. -/
structure FaceState where
  resultArray : List String
  vtxMap : StdMap
  intArray : List Int
  u : ℚ
  v : ℚ
  uvPointArray : UVPointArray

/-- The array `uvPointArray` right after its declaration (line 133). -/
def declaredPointArray (ind : Indeterminate) (previous : UVPointArray) : UVPointArray :=
  match ind.uvPointDefault with
  | some point => ⟨point, point, point⟩
  | none => previous

/-- Body of the loop over the triangles (lines 131-161) in the arithmetic `ar`. -/
def overlapTriangleWith (ar : FloatArith) (ind : Indeterminate) (mesh : Mesh)
    (poly : Polygon) (st : FaceState) (i : Nat) : FaceState :=
  let intArray := (poly.getTriangle (i : Int)).getD st.intArray
  let corners := cornerLoop mesh poly intArray 0
    ⟨st.vtxMap, st.u, st.v, declaredPointArray ind st.uvPointArray⟩
  let area := triangleAreaWith ar corners.uvPointArray
  if ar.isNegative area = true then
    ⟨st.resultArray ++ [componentName mesh (poly.index : Int)], corners.vtxMap, intArray,
      corners.u, corners.v, corners.uvPointArray⟩
  else
    ⟨st.resultArray, corners.vtxMap, intArray, corners.u, corners.v, corners.uvPointArray⟩

/-- The loop `vtxMap[vtxArray[i]] = i` from position `i` on (lines 124-126). -/
def fillVtxMap : List Int → Nat → StdMap → StdMap
  | [], _, m => m
  | x :: xs, i, m => fillVtxMap xs (i + 1) (StdMap.assign m x (i : Int))

/-- Variables of `findOverlaps` that outlive a face iteration: the locals of
the function, and the contents left in the locals of the triangle loop. -/
structure OverlapState where
  resultArray : List String
  numTriangles : Int
  vtxMap : StdMap
  u : ℚ
  v : ℚ
  uvPointArray : UVPointArray

/-- Body of the loop over the faces (lines 119-163) in the arithmetic `ar`. -/
def overlapFaceWith (ar : FloatArith) (ind : Indeterminate) (mesh : Mesh)
    (st : OverlapState) (poly : Polygon) : OverlapState :=
  let numTriangles := poly.numTriangles.getD st.numTriangles
  let vtxArray := poly.getVertices
  let vtxMap := fillVtxMap vtxArray 0 st.vtxMap
  let face := (List.range numTriangles.toNat).foldl (overlapTriangleWith ar ind mesh poly)
    ⟨st.resultArray, vtxMap, [], st.u, st.v, st.uvPointArray⟩
  ⟨face.resultArray, numTriangles, StdMap.empty, face.u, face.v, face.uvPointArray⟩

/-- The function `findOverlaps` (lines 107-167) in the arithmetic `ar`. -/
def findOverlapsWith (ar : FloatArith) (ind : Indeterminate) (self : UvChecker) : Outcome :=
  let final := self.mDagPath.polygons.foldl (overlapFaceWith ar ind self.mDagPath)
    ⟨[], ind.numTriangles, StdMap.empty, ind.u, ind.v, ind.uvPointArray⟩
  ⟨MStatus.kSuccess, some final.resultArray⟩

/-- Body of the loop over the triangles as the source runs it, in binary32. -/
def overlapTriangle (ind : Indeterminate) (mesh : Mesh) (poly : Polygon)
    (st : FaceState) (i : Nat) : FaceState :=
  overlapTriangleWith binary32 ind mesh poly st i

/-- Member function `UvChecker::findOverlaps` (lines 107-167). -/
def UvChecker.findOverlaps (ind : Indeterminate) (self : UvChecker) : Outcome :=
  findOverlapsWith binary32 ind self

/-! ## `UvChecker::redoIt` and `UvChecker::doIt` -/

/-- The check ids `UvChecker::OVERLAPS` and `UvChecker::UDIM` of `uvChecker.h`,
which is not part of the repository. -/
structure CheckIds where
  OVERLAPS : Nat
  UDIM : Nat

/-- A line shown through `MGlobal`. -/
inductive Message where
  | displayInfo (text : String)
  | displayError (text : String)
  deriving DecidableEq

/-- What the command hands back to Maya: status, result and displayed lines. -/
structure CommandOutcome where
  status : MStatus
  result : Option (List String)
  display : List Message
  deriving DecidableEq

/-- Member function `UvChecker::redoIt` (lines 69-90). -/
def UvChecker.redoIt (ids : CheckIds) (ind : Indeterminate) (self : UvChecker) :
    CommandOutcome :=
  if self.checkNumber = ids.OVERLAPS then
    let r := self.findOverlaps ind
    if r.status ≠ MStatus.kSuccess then
      ⟨r.status, r.result, [Message.displayInfo "Checking overlaps"]⟩
    else
      ⟨MStatus.kSuccess, r.result, [Message.displayInfo "Checking overlaps"]⟩
  else if self.checkNumber = ids.UDIM then
    let r := self.findUdimIntersections ind
    if r.status ≠ MStatus.kSuccess then
      ⟨r.status, r.result, [Message.displayInfo "Checking udim borders"]⟩
    else
      ⟨MStatus.kSuccess, r.result, [Message.displayInfo "Checking udim borders"]⟩
  else
    ⟨MStatus.kSuccess, none, [Message.displayError "Invalid check number"]⟩

/-- What the object path of the command line resolves to. -/
inductive DagTarget where
  /-- No shape below the path: `extendToShape` fails. -/
  | noShape
  /-- A shape whose `apiType()` is not `MFn::kMesh`. -/
  | otherShape
  /-- A mesh shape. -/
  | meshShape (mesh : Mesh)

/-- The parsed command line: the object argument when it resolves, and the
arguments of the flags that are set. -/
structure MArgDatabase where
  commandArgument : Option DagTarget
  verboseFlag : Option Bool
  checkFlag : Option Nat

/-- Member function `UvChecker::doIt` (lines 32-67). -/
def UvChecker.doIt (ids : CheckIds) (ind : Indeterminate) (argData : MArgDatabase) :
    CommandOutcome :=
  match argData.commandArgument with
  | none =>
    ⟨MStatus.kFailure, none, [Message.displayError "You have provide an object path"]⟩
  | some target =>
    let verbose := match argData.verboseFlag with
      | some b => b
      | none => false
    let checkNumber := match argData.checkFlag with
      | some n => n
      | none => 99
    match target with
    | DagTarget.noShape => ⟨MStatus.kFailure, none, []⟩
    | DagTarget.otherShape =>
      ⟨MStatus.kFailure, none, [Message.displayError "Selected object is not mesh."]⟩
    | DagTarget.meshShape mesh =>
      UvChecker.redoIt ids ind ⟨mesh, verbose, checkNumber⟩

/-! ## Notions of the specification -/

/-- Signed UV area of a corner triple, by the formula of the specification,
over the rationals. -/
def signedArea (A B C : UVPoint) : ℚ :=
  (A.u * (B.v - C.v) + B.u * (C.v - A.v) + C.u * (A.v - B.v)) / 2

/-- The formula of the specification evaluated in the arithmetic `ar`. -/
def signedAreaWith (ar : FloatArith) (A B C : UVPoint) : ar.F :=
  ar.half
    (ar.add
      (ar.add
        (ar.mul (ar.ofCoord A.u) (ar.sub (ar.ofCoord B.v) (ar.ofCoord C.v)))
        (ar.mul (ar.ofCoord B.u) (ar.sub (ar.ofCoord C.v) (ar.ofCoord A.v))))
      (ar.mul (ar.ofCoord C.u) (ar.sub (ar.ofCoord A.v) (ar.ofCoord B.v))))

/-- The formula of the specification evaluated in binary32, every operation
rounded to nearest. -/
def computedArea (A B C : UVPoint) : F32 :=
  signedAreaWith binary32 A B C

/-- A rational is a binary32 value: rounding leaves it as it is and it does
not overflow. -/
def F32.Representable (q : ℚ) : Prop :=
  F32.ofRat q = F32.finite q

/-- A float whose finite value, if it has one, is a binary32 value. -/
def F32.IsValue : F32 → Prop
  | F32.finite r => F32.ofRat r = F32.finite r
  | F32.inf _ => True
  | F32.nan => True

/-- UDIM tile of a coordinate pair: `(floor u, floor v)`. -/
def udimTile (uv : ℚ × ℚ) : Int × Int :=
  (Int.floor uv.1, Int.floor uv.2)

/-- Last position of a list that holds `x`. -/
def lastPosition (x : Int) : List Int → Option Nat
  | [] => none
  | y :: ys =>
    match lastPosition x ys with
    | some j => some (j + 1)
    | none => if y = x then some 0 else none

/-- Loop position of a face for a vertex id: the last position of the vertex
loop that holds the id, and position 0 for an id the loop does not hold. -/
def loopPosition (poly : Polygon) (vertexId : Int) : Int :=
  match lastPosition vertexId poly.vertices with
  | some j => (j : Int)
  | none => 0

/-- Loop position the overlap pass reads for a vertex id of a face: the value
of `vtxMap[vertexId]` after the loop of lines 124-126. -/
def localIndex (poly : Polygon) (vertexId : Int) : Int :=
  (StdMap.index (fillVtxMap poly.getVertices 0 StdMap.empty) vertexId).1

/-- UV coordinate of the corner of a face with the given vertex id. -/
def cornerUV (mesh : Mesh) (poly : Polygon) (vertexId : Int) : Option UVPoint :=
  (mesh.getUVIndex poly (loopPosition poly vertexId)).map (fun r => ⟨r.2.1, r.2.2⟩)

/-- The three UV corners of a triangle of a face, when all of them resolve. -/
def triangleCorners (mesh : Mesh) (poly : Polygon) (t : Int × Int × Int) :
    Option (UVPoint × UVPoint × UVPoint) :=
  match cornerUV mesh poly t.1, cornerUV mesh poly t.2.1, cornerUV mesh poly t.2.2 with
  | some A, some B, some C => some (A, B, C)
  | _, _, _ => none

/-- A triangle counts as inverted in the arithmetic `ar` when the area formula,
evaluated in `ar` on its corners, is strictly negative. -/
def isInvertedWith (ar : FloatArith) (mesh : Mesh) (poly : Polygon)
    (t : Int × Int × Int) : Bool :=
  match triangleCorners mesh poly t with
  | some c => ar.isNegative (signedAreaWith ar c.1 c.2.1 c.2.2)
  | none => false

/-- A triangle is inverted when its signed UV area is strictly negative. -/
def isInvertedExact (mesh : Mesh) (poly : Polygon) (t : Int × Int × Int) : Bool :=
  match triangleCorners mesh poly t with
  | some c => decide (signedArea c.1 c.2.1 c.2.2 < 0)
  | none => false

/-- A triangle is reported when the area computed in binary32 is negative. -/
def isInverted (mesh : Mesh) (poly : Polygon) (t : Int × Int × Int) : Bool :=
  match triangleCorners mesh poly t with
  | some c => F32.isNegative (computedArea c.1 c.2.1 c.2.2)
  | none => false

/-- Every lookup of the overlap pass succeeds: each face has a triangulation
and each triangle corner resolves to a UV coordinate. -/
def OverlapLookupsOk (mesh : Mesh) : Prop :=
  ∀ poly ∈ mesh.polygons, poly.triangles.isSome = true ∧
    ∀ t ∈ poly.triangles.getD [], (triangleCorners mesh poly t).isSome = true

/-- Entries one face contributes in the arithmetic `ar`: its identifier once
per inverted triangle, in triangulation order. -/
def faceEntriesWith (ar : FloatArith) (mesh : Mesh) (poly : Polygon) : List String :=
  (poly.triangles.getD []).flatMap
    (fun t => if isInvertedWith ar mesh poly t
      then [componentName mesh (poly.index : Int)] else [])

/-- The overlap report in the arithmetic `ar`: faces in mesh order. -/
def overlapEntriesWith (ar : FloatArith) (mesh : Mesh) : List String :=
  mesh.polygons.flatMap (faceEntriesWith ar mesh)

/-- Entries one face contributes: its identifier once per triangle whose
computed area is negative, in triangulation order. -/
def faceEntries (mesh : Mesh) (poly : Polygon) : List String :=
  (poly.triangles.getD []).flatMap
    (fun t => if isInverted mesh poly t then [componentName mesh (poly.index : Int)] else [])

/-- The overlap report by computed areas: faces in mesh order. -/
def overlapEntries (mesh : Mesh) : List String :=
  mesh.polygons.flatMap (faceEntries mesh)

/-- The overlap report of the specification, by the sign of the exact signed
area: faces in mesh order, triangles in triangulation order. -/
def overlapEntriesExact (mesh : Mesh) : List String :=
  mesh.polygons.flatMap (fun poly =>
    (poly.triangles.getD []).flatMap
      (fun t => if isInvertedExact mesh poly t
        then [componentName mesh (poly.index : Int)] else []))

/-- Number of triangles of a face whose computed area is negative. -/
def invertedCount (mesh : Mesh) (poly : Polygon) : Nat :=
  (poly.triangles.getD []).countP (isInverted mesh poly)

/-- Every lookup of the UDIM pass succeeds: each loop position of each face
has a UV id with a coordinate in the UV table. -/
def UdimLookupsOk (mesh : Mesh) : Prop :=
  ∀ poly ∈ mesh.polygons, ∀ i ∈ List.range poly.vertices.length,
    (mesh.getUVIndex poly (i : Int)).isSome = true

/-- The edge of a face from loop position `i` to the next position (wrapping)
joins the UV ids `a` and `b` and its endpoints lie in different UDIM tiles. -/
def EdgeCrosses (mesh : Mesh) (poly : Polygon) (i : Nat) (a b : Int) : Prop :=
  i < poly.vertices.length ∧
    poly.getUVIndex (i : Int) = some a ∧
    poly.getUVIndex (((i + 1) % poly.vertices.length : Nat) : Int) = some b ∧
    ∃ pa pb : ℚ × ℚ, mesh.getUV a = some pa ∧ mesh.getUV b = some pb
      ∧ udimTile pa ≠ udimTile pb

/-- The UV id `x` is an endpoint of some face edge that crosses a tile border. -/
def CrossingEndpoint (mesh : Mesh) (x : Int) : Prop :=
  ∃ poly ∈ mesh.polygons, ∃ i a b, EdgeCrosses mesh poly i a b ∧ (x = a ∨ x = b)

instance (mesh : Mesh) : Decidable (OverlapLookupsOk mesh) := by
  unfold OverlapLookupsOk
  infer_instance

instance (mesh : Mesh) : Decidable (UdimLookupsOk mesh) := by
  unfold UdimLookupsOk
  infer_instance

instance (q : ℚ) : Decidable (F32.Representable q) := by
  unfold F32.Representable
  infer_instance

/-- Face ids the overlap pass detects, in order: the id of a face once per
triangle whose computed area is negative. -/
def overlapFaceIndices (mesh : Mesh) : List Int :=
  mesh.polygons.flatMap (fun poly =>
    (poly.triangles.getD []).flatMap
      (fun t => if isInverted mesh poly t then [(poly.index : Int)] else []))

/-- The string array `out` renders the indices `ns` under the mesh path `p`:
same length, and entry `i` is `p`, then `.f[`, the decimal index, then `]`. -/
def Renders (p : String) (ns : List Int) (out : List String) : Prop :=
  out.length = ns.length ∧
    ∀ (i : Nat) (h : i < ns.length),
      out.get? i = some (p ++ ".f[" ++ toString (ns.get ⟨i, h⟩) ++ "]")

/-! ## Example data -/

/-- Some contents for the uninitialised locals, with a default constructor of
`UVPoint` that sets both members to zero. -/
def indeterminateZero : Indeterminate :=
  ⟨0, 0, 0, ⟨⟨0, 0⟩, ⟨0, 0⟩, ⟨0, 0⟩⟩, some ⟨0, 0⟩, ⟨0, 0, 0, 0, 0, 0⟩⟩

/-- Other contents for the uninitialised locals, with a default constructor of
`UVPoint` that leaves the members as they are. -/
def indeterminateStale : Indeterminate :=
  ⟨5, 3, -4, ⟨⟨5, 6⟩, ⟨1, 7⟩, ⟨2, 0⟩⟩, none, ⟨7, 8, 9, 10, 11, 12⟩⟩

/-- The quad of the overlap example: face id 0, loop positions 0..3 carrying
UV ids 0..3, triangulated as (0,1,2) and (0,2,3). -/
def quadFace : Polygon :=
  ⟨0, [0, 1, 2, 3], [some 0, some 1, some 2, some 3], some [(0, 1, 2), (0, 2, 3)]⟩

/-- The mesh of the overlap example over a given UV table. -/
def quadMesh (uvTable : List (ℚ × ℚ)) : Mesh :=
  ⟨"mesh", [quadFace], uvTable⟩

/-- The quad with counter-clockwise UVs. -/
def quadCCW : Mesh := quadMesh [(0, 0), (1, 0), (1, 1), (0, 1)]

/-- The quad with clockwise UVs. -/
def quadCW : Mesh := quadMesh [(0, 0), (0, 1), (1, 1), (1, 0)]

/-- A triangle face: id 0, loop positions 0..2 carrying UV ids 0..2. -/
def triangleFace : Polygon :=
  ⟨0, [0, 1, 2], [some 0, some 1, some 2], some [(0, 1, 2)]⟩

/-- A mesh of one triangle face over a given UV table. -/
def triangleMesh (uvTable : List (ℚ × ℚ)) : Mesh :=
  ⟨"mesh", [triangleFace], uvTable⟩

/-- A triangle whose three edges all cross tile borders. -/
def crossingTriangle : Mesh :=
  ⟨"mesh", [triangleFace], [(1 / 5, 1 / 5), (9 / 5, 3 / 10), (3 / 10, 19 / 10)]⟩

/-- A triangle inside tile (1, 0) with a corner on the grid line `u = 1`. -/
def borderTriangle : Mesh :=
  ⟨"mesh", [triangleFace], [(1, 1 / 5), (3 / 2, 1 / 5), (6 / 5, 4 / 5)]⟩

/-- A triangle with collinear UV corners. -/
def collinearTriangle : Mesh :=
  ⟨"mesh", [triangleFace], [(0, 0), (1, 1), (2, 2)]⟩

/-- A triangle with collinear UV corners on the grid of step `1/65536`; the
area computed in binary32 is `-1/2^31`. -/
def collinearRounded : Mesh :=
  triangleMesh [(50588 / 65536, 40786 / 65536), (51084 / 65536, 41474 / 65536),
    (51983 / 65536, 42721 / 65536)]

/-- A thin clockwise triangle on the grid of step `1/65536`: signed area
`-11/2^32`, computed in binary32 as `-1/2^30`. -/
def thinTriangle : Mesh :=
  triangleMesh [(41123 / 65536, 44580 / 65536), (43971 / 65536, 46015 / 65536),
    (55365 / 65536, 51756 / 65536)]

/-- The thin clockwise triangle with its corners listed from the second one
on; the area computed in binary32 is `0`. -/
def thinTriangleRotated : Mesh :=
  triangleMesh [(43971 / 65536, 46015 / 65536), (55365 / 65536, 51756 / 65536),
    (41123 / 65536, 44580 / 65536)]

/-- A thin counter-clockwise triangle on the grid of step `1/65536`: signed
area `9/2^32`, computed in binary32 as `-1/2^27`. -/
def flippedTriangle : Mesh :=
  triangleMesh [(55726 / 65536, 48007 / 65536), (54556 / 65536, 34426 / 65536),
    (54584 / 65536, 34751 / 65536)]

/-- The thin counter-clockwise triangle with its corners in reversed order:
signed area `-9/2^32`, computed in binary32 as `19/2^32`. -/
def flippedTriangleReversed : Mesh :=
  triangleMesh [(54584 / 65536, 34751 / 65536), (54556 / 65536, 34426 / 65536),
    (55726 / 65536, 48007 / 65536)]

/-- A triangle whose first two UV corners coincide. -/
def coincidentTriangle : Mesh :=
  triangleMesh [(1 / 3, 1 / 5), (1 / 3, 1 / 5), (7 / 10, 2 / 3)]

/-- The quad face with each triangle listing its corners in reversed order. -/
def quadFaceReversed : Polygon :=
  ⟨0, [0, 1, 2, 3], [some 0, some 1, some 2, some 3], some [(2, 1, 0), (3, 2, 0)]⟩

/-- The quad face with each triangle listing its corners from the second one on. -/
def quadFaceRotated : Polygon :=
  ⟨0, [0, 1, 2, 3], [some 0, some 1, some 2, some 3], some [(1, 2, 0), (2, 3, 0)]⟩

/-- A mesh with failing lookups: face 0 is sound, face 1 has no
triangulation, face 2 has an unmapped loop position and face 3 refers to
the UV id 9, which has no entry in the UV table. -/
def faultyMesh : Mesh :=
  ⟨"mesh",
    [⟨0, [0, 1, 2], [some 0, some 1, some 2], some [(0, 1, 2)]⟩,
     ⟨1, [0, 2, 3], [some 0, some 2, some 3], none⟩,
     ⟨2, [0, 3, 4], [some 0, none, some 3], some [(0, 3, 4)]⟩,
     ⟨3, [0, 4, 5], [some 0, some 9, some 1], some [(0, 4, 5)]⟩],
    [(0, 0), (0, 1), (1, 1), (3 / 2, 0)]⟩

/-- A face whose loop visits the vertex id 7 at positions 0 and 2. -/
def pinchedFace : Polygon :=
  ⟨0, [7, 8, 7], [some 0, some 1, some 2], some [(7, 8, 7)]⟩

/-- A face inside tile (0, 0) whose first loop position carries UV id 3. -/
def staleFaceA : Polygon :=
  ⟨0, [0, 1, 2], [some 3, some 1, some 2], some [(0, 1, 2)]⟩

/-- A face of two loop positions: UV id 4, then an unmapped position. -/
def staleFaceB : Polygon :=
  ⟨1, [3, 4], [some 4, none], none⟩

/-- A UV table for the two faces above: ids 1, 2 and 3 lie in tile (0, 0),
ids 0 and 4 in tile (1, 0). -/
def staleTable : List (ℚ × ℚ) :=
  [(3 / 2, 1 / 2), (1 / 4, 1 / 4), (3 / 4, 1 / 4), (1 / 2, 1 / 2), (3 / 2, 1 / 2)]

/-- A counter-clockwise triangle face, id 0, with sound lookups. -/
def soundFace : Polygon :=
  ⟨0, [0, 1, 2], [some 0, some 1, some 2], some [(0, 1, 2)]⟩

/-- A face, id 1, whose first loop position is unmapped. -/
def halfMappedFace : Polygon :=
  ⟨1, [0, 1, 2], [none, some 1, some 3], some [(0, 1, 2)]⟩

/-- The corners of the unit square, UV ids 0..3. -/
def squareTable : List (ℚ × ℚ) :=
  [(0, 0), (1, 0), (1, 1), (0, 1)]

/-! ## Variations of a mesh, and the loops by position -/

/-- The mesh with another sequence of faces: same path, same UV table. -/
def Mesh.withPolygons (mesh : Mesh) (polygons : List Polygon) : Mesh :=
  ⟨mesh.fullPathName, polygons, mesh.uvTable⟩

/-- The mesh with every UV coordinate (u, v) replaced by (u + du, v + dv). -/
def Mesh.translate (mesh : Mesh) (du dv : ℚ) : Mesh :=
  ⟨mesh.fullPathName, mesh.polygons, mesh.uvTable.map (fun uv => (uv.1 + du, uv.2 + dv))⟩

/-- The loop position the UDIM pass pairs with position `i` (lines 188-192):
position 0 when `i == vCount - 1`, position `i + 1` otherwise. -/
def nextPosition (vCount : Int) (i : Nat) : Int :=
  if (i : Int) = vCount - 1 then 0 else (i : Int) + 1

/-- The body of the UDIM edge loop (lines 186-201) for the edge from loop
position `i` to loop position `j`. -/
def udimEdgeBetween (mesh : Mesh) (poly : Polygon) (st : UdimLocals × List Int)
    (i j : Int) : UdimLocals × List Int :=
  let currentIndex := (poly.getUVIndex i).getD st.1.currentIndex
  let nextIndex := (poly.getUVIndex j).getD st.1.nextIndex
  let uv1 := (mesh.getUV currentIndex).getD (st.1.u1, st.1.v1)
  let uv2 := (mesh.getUV nextIndex).getD (st.1.u2, st.1.v2)
  let locals : UdimLocals := ⟨currentIndex, nextIndex, uv1.1, uv1.2, uv2.1, uv2.2⟩
  if Int.floor uv1.1 = Int.floor uv2.1 ∧ Int.floor uv1.2 = Int.floor uv2.2 then
    (locals, st.2)
  else
    (locals, StdSet.insert nextIndex (StdSet.insert currentIndex st.2))

/-- The pairs of loop positions the UDIM pass examines on a face of `n`
vertices, in order. -/
def examinedEdges (n : Nat) : List (Int × Int) :=
  (List.range n).map (fun (i : Nat) => ((i : Int), nextPosition (n : Int) i))

/-- The UV point moved by (du, dv). -/
def UVPoint.translate (P : UVPoint) (du dv : ℚ) : UVPoint :=
  ⟨P.u + du, P.v + dv⟩

/-! ## Lemmas on the containers and loops -/

theorem StdMap.index_fst (m : StdMap) (k : Int) :
    (StdMap.index m k).1 = (m k).getD 0 := by
  unfold StdMap.index
  cases h : m k <;> simp

theorem StdMap.index_snd_index (m : StdMap) (k x : Int) :
    (StdMap.index (StdMap.index m k).2 x).1 = (StdMap.index m x).1 := by
  rw [StdMap.index_fst, StdMap.index_fst]
  unfold StdMap.index
  cases h : m k with
  | some v => simp
  | none =>
    by_cases hx : x = k
    · subst hx
      simp [StdMap.assign, h]
    · simp [StdMap.assign, hx]

/-! ## The vertex map of a face -/

theorem fillVtxMap_not_mem :
    ∀ (xs : List Int) (k : Nat) (m : StdMap) (x : Int), x ∉ xs →
      fillVtxMap xs k m x = m x := by
  intro xs
  induction xs with
  | nil => intro k m x _; rfl
  | cons y ys ih =>
    intro k m x hx
    have hne : x ≠ y := fun h => hx (h ▸ List.mem_cons_self _ _)
    have hys : x ∉ ys := fun h => hx (List.mem_cons_of_mem _ h)
    simp only [fillVtxMap]
    rw [ih (k + 1) _ x hys]
    simp [StdMap.assign, hne]

theorem lastPosition_eq_none {x : Int} :
    ∀ {xs : List Int}, lastPosition x xs = none → x ∉ xs := by
  intro xs
  induction xs with
  | nil => intro _; exact List.not_mem_nil x
  | cons y ys ih =>
    intro h
    unfold lastPosition at h
    cases hl : lastPosition x ys with
    | some j => rw [hl] at h; exact absurd h (by simp)
    | none =>
      rw [hl] at h
      by_cases hy : y = x
      · rw [if_pos hy] at h
        exact absurd h (by simp)
      · intro hmem
        rcases List.mem_cons.mp hmem with h1 | h1
        · exact hy h1.symm
        · exact ih hl h1

theorem fillVtxMap_eq_lastPosition :
    ∀ (xs : List Int) (k : Nat) (m : StdMap) (x : Int),
      fillVtxMap xs k m x
        = match lastPosition x xs with
          | some j => some (((k + j : Nat) : Int))
          | none => m x := by
  intro xs
  induction xs with
  | nil => intro k m x; rfl
  | cons y ys ih =>
    intro k m x
    simp only [fillVtxMap, lastPosition]
    rw [ih (k + 1) _ x]
    cases hl : lastPosition x ys with
    | some j =>
      simp only
      congr 2
      omega
    | none =>
      simp only
      by_cases hy : y = x
      · subst hy
        simp [StdMap.assign]
      · have hxy : x ≠ y := fun h => hy h.symm
        simp [StdMap.assign, hy, hxy]

theorem localIndex_eq_loopPosition (poly : Polygon) (x : Int) :
    localIndex poly x = loopPosition poly x := by
  unfold localIndex loopPosition Polygon.getVertices
  rw [StdMap.index_fst, fillVtxMap_eq_lastPosition]
  cases lastPosition x poly.vertices with
  | some j => simp
  | none => rfl

/-! ## The overlap pass when every lookup succeeds -/

theorem triangleAreaWith_mk (ar : FloatArith) (A B C : UVPoint) :
    triangleAreaWith ar ⟨A, B, C⟩ = signedAreaWith ar A B C := rfl

theorem triangleArea_mk (A B C : UVPoint) :
    triangleArea ⟨A, B, C⟩ = computedArea A B C := rfl

theorem signedAreaWith_exact (A B C : UVPoint) :
    signedAreaWith exactArith A B C = signedArea A B C := rfl

theorem isNegative_exact (x : ℚ) :
    exactArith.isNegative x = decide (x < 0) := rfl

theorem isInvertedWith_exact (mesh : Mesh) (poly : Polygon) (t : Int × Int × Int) :
    isInvertedWith exactArith mesh poly t = isInvertedExact mesh poly t := rfl

theorem isInvertedWith_binary32 (mesh : Mesh) (poly : Polygon) (t : Int × Int × Int) :
    isInvertedWith binary32 mesh poly t = isInverted mesh poly t := rfl

theorem faceEntriesWith_binary32 (mesh : Mesh) (poly : Polygon) :
    faceEntriesWith binary32 mesh poly = faceEntries mesh poly := rfl

theorem overlapEntriesWith_binary32 (mesh : Mesh) :
    overlapEntriesWith binary32 mesh = overlapEntries mesh := rfl

theorem overlapEntriesWith_exact (mesh : Mesh) :
    overlapEntriesWith exactArith mesh = overlapEntriesExact mesh := rfl

theorem triangleCorners_eq_some {mesh : Mesh} {poly : Polygon} {t : Int × Int × Int}
    {c : UVPoint × UVPoint × UVPoint} (h : triangleCorners mesh poly t = some c) :
    cornerUV mesh poly t.1 = some c.1 ∧ cornerUV mesh poly t.2.1 = some c.2.1
      ∧ cornerUV mesh poly t.2.2 = some c.2.2 := by
  unfold triangleCorners at h
  split at h
  · rename_i A B C hA hB hC
    simp only [Option.some.injEq] at h
    subst h
    exact ⟨hA, hB, hC⟩
  · exact absurd h (by simp)

theorem triangleCorners_of_corners {mesh : Mesh} {poly : Polygon} {x y z : Int}
    {A B C : UVPoint} (hA : cornerUV mesh poly x = some A)
    (hB : cornerUV mesh poly y = some B) (hC : cornerUV mesh poly z = some C) :
    triangleCorners mesh poly (x, y, z) = some (A, B, C) := by
  unfold triangleCorners
  simp only [hA, hB, hC]

theorem getTriangle_of_triangles {poly : Polygon} {ts : List (Int × Int × Int)}
    (hts : poly.triangles = some ts) (k : Nat) (hk : k < ts.length) :
    poly.getTriangle (k : Int)
      = some [(ts.get ⟨k, hk⟩).1, (ts.get ⟨k, hk⟩).2.1, (ts.get ⟨k, hk⟩).2.2] := by
  unfold Polygon.getTriangle
  rw [hts]
  have hneg : ¬ ((k : Int) < 0) := by omega
  simp [hneg, List.getElem?_eq_getElem hk]

theorem cornerStep_resolved (mesh : Mesh) (poly : Polygon) (st : CornerState) (n : Nat)
    (x : Int) (P : UVPoint)
    (hm : ∀ k, (StdMap.index st.vtxMap k).1 = localIndex poly k)
    (hP : cornerUV mesh poly x = some P) :
    (cornerStep mesh poly st n x).uvPointArray = st.uvPointArray.set n P
      ∧ ∀ k, (StdMap.index (cornerStep mesh poly st n x).vtxMap k).1 = localIndex poly k := by
  unfold cornerUV at hP
  rw [← localIndex_eq_loopPosition] at hP
  unfold cornerStep
  refine ⟨?_, ?_⟩
  · simp only [hm x]
    cases hr : mesh.getUVIndex poly (localIndex poly x) with
    | none => rw [hr] at hP; simp at hP
    | some r =>
      rw [hr] at hP
      simp only [Option.map_some', Option.some.injEq] at hP
      subst hP
      rfl
  · intro k
    simp only
    rw [StdMap.index_snd_index]
    exact hm k

theorem cornerLoop_triangle (mesh : Mesh) (poly : Polygon) (st : CornerState)
    (t : Int × Int × Int) (c : UVPoint × UVPoint × UVPoint)
    (hm : ∀ k, (StdMap.index st.vtxMap k).1 = localIndex poly k)
    (hc : triangleCorners mesh poly t = some c) :
    (cornerLoop mesh poly [t.1, t.2.1, t.2.2] 0 st).uvPointArray = ⟨c.1, c.2.1, c.2.2⟩
      ∧ ∀ k, (StdMap.index (cornerLoop mesh poly [t.1, t.2.1, t.2.2] 0 st).vtxMap k).1
          = localIndex poly k := by
  obtain ⟨hA, hB, hC⟩ := triangleCorners_eq_some hc
  simp only [cornerLoop]
  obtain ⟨a1, m1⟩ := cornerStep_resolved mesh poly st 0 t.1 c.1 hm hA
  obtain ⟨a2, m2⟩ := cornerStep_resolved mesh poly _ (0 + 1) t.2.1 c.2.1 m1 hB
  obtain ⟨a3, m3⟩ := cornerStep_resolved mesh poly _ (0 + 1 + 1) t.2.2 c.2.2 m2 hC
  refine ⟨?_, m3⟩
  rw [a3, a2, a1]
  rfl

theorem overlapTriangleWith_resolved (ar : FloatArith) (ind : Indeterminate) (mesh : Mesh)
    (poly : Polygon) (st : FaceState) (i : Nat) (t : Int × Int × Int)
    (c : UVPoint × UVPoint × UVPoint)
    (hm : ∀ k, (StdMap.index st.vtxMap k).1 = localIndex poly k)
    (ht : poly.getTriangle (i : Int) = some [t.1, t.2.1, t.2.2])
    (hc : triangleCorners mesh poly t = some c) :
    (overlapTriangleWith ar ind mesh poly st i).resultArray
        = st.resultArray ++ (if ar.isNegative (signedAreaWith ar c.1 c.2.1 c.2.2) = true
            then [componentName mesh (poly.index : Int)] else [])
      ∧ ∀ k, (StdMap.index (overlapTriangleWith ar ind mesh poly st i).vtxMap k).1
          = localIndex poly k := by
  obtain ⟨harr, hmap⟩ := cornerLoop_triangle mesh poly
    ⟨st.vtxMap, st.u, st.v, declaredPointArray ind st.uvPointArray⟩ t c hm hc
  unfold overlapTriangleWith
  simp only [ht, Option.getD_some, harr, triangleAreaWith_mk]
  by_cases hneg : ar.isNegative (signedAreaWith ar c.1 c.2.1 c.2.2) = true
  · rw [if_pos hneg, if_pos hneg]
    exact ⟨rfl, hmap⟩
  · rw [if_neg hneg, if_neg hneg, List.append_nil]
    exact ⟨rfl, hmap⟩

theorem isInvertedWith_of_corners (ar : FloatArith) {mesh : Mesh} {poly : Polygon}
    {t : Int × Int × Int} {c : UVPoint × UVPoint × UVPoint}
    (hc : triangleCorners mesh poly t = some c) :
    isInvertedWith ar mesh poly t = ar.isNegative (signedAreaWith ar c.1 c.2.1 c.2.2) := by
  unfold isInvertedWith
  rw [hc]

theorem isInverted_of_corners {mesh : Mesh} {poly : Polygon} {t : Int × Int × Int}
    {A B C : UVPoint} (hc : triangleCorners mesh poly t = some (A, B, C)) :
    isInverted mesh poly t = F32.isNegative (computedArea A B C) := by
  unfold isInverted
  rw [hc]

theorem isInvertedExact_of_corners {mesh : Mesh} {poly : Polygon} {t : Int × Int × Int}
    {A B C : UVPoint} (hc : triangleCorners mesh poly t = some (A, B, C)) :
    isInvertedExact mesh poly t = decide (signedArea A B C < 0) := by
  unfold isInvertedExact
  rw [hc]

theorem overlapTriangle_resolved (ind : Indeterminate) (mesh : Mesh) (poly : Polygon)
    (st : FaceState) (i : Nat) (t : Int × Int × Int) (A B C : UVPoint)
    (hm : ∀ k, (StdMap.index st.vtxMap k).1 = localIndex poly k)
    (ht : poly.getTriangle (i : Int) = some [t.1, t.2.1, t.2.2])
    (hc : triangleCorners mesh poly t = some (A, B, C)) :
    (overlapTriangle ind mesh poly st i).resultArray
      = st.resultArray ++ (if F32.isNegative (computedArea A B C) = true
          then [componentName mesh (poly.index : Int)] else []) :=
  (overlapTriangleWith_resolved binary32 ind mesh poly st i t (A, B, C) hm ht hc).1

theorem overlapTriangleExact_resolved (ind : Indeterminate) (mesh : Mesh) (poly : Polygon)
    (st : FaceState) (i : Nat) (t : Int × Int × Int) (A B C : UVPoint)
    (hm : ∀ k, (StdMap.index st.vtxMap k).1 = localIndex poly k)
    (ht : poly.getTriangle (i : Int) = some [t.1, t.2.1, t.2.2])
    (hc : triangleCorners mesh poly t = some (A, B, C)) :
    (overlapTriangleWith exactArith ind mesh poly st i).resultArray
      = st.resultArray ++ (if signedArea A B C < 0
          then [componentName mesh (poly.index : Int)] else []) := by
  rw [(overlapTriangleWith_resolved exactArith ind mesh poly st i t (A, B, C) hm ht hc).1]
  simp only [signedAreaWith_exact, isNegative_exact, decide_eq_true_eq]

theorem overlapTrianglesWith_fold (ar : FloatArith) (ind : Indeterminate) (mesh : Mesh)
    (poly : Polygon) (ts : List (Int × Int × Int)) (hts : poly.triangles = some ts)
    (hc : ∀ t ∈ ts, (triangleCorners mesh poly t).isSome = true)
    (st : FaceState) (hm : ∀ x, (StdMap.index st.vtxMap x).1 = localIndex poly x) :
    ∀ k, k ≤ ts.length →
      ((List.range k).foldl (overlapTriangleWith ar ind mesh poly) st).resultArray
          = st.resultArray ++ (ts.take k).flatMap
              (fun t => if isInvertedWith ar mesh poly t
                then [componentName mesh (poly.index : Int)] else [])
        ∧ ∀ x, (StdMap.index
            ((List.range k).foldl (overlapTriangleWith ar ind mesh poly) st).vtxMap x).1
              = localIndex poly x := by
  intro k
  induction k with
  | zero => intro _; simpa using hm
  | succ k ih =>
    intro hk
    have hk1 : k < ts.length := by omega
    obtain ⟨hres, hreads⟩ := ih (by omega)
    have hmem : ts.get ⟨k, hk1⟩ ∈ ts := List.get_mem ts k hk1
    obtain ⟨c, hcorner⟩ := Option.isSome_iff_exists.mp (hc _ hmem)
    obtain ⟨hstep, hreads1⟩ := overlapTriangleWith_resolved ar ind mesh poly
      ((List.range k).foldl (overlapTriangleWith ar ind mesh poly) st) k (ts.get ⟨k, hk1⟩) c
      hreads (getTriangle_of_triangles hts k hk1) hcorner
    rw [List.range_succ, List.foldl_append]
    simp only [List.foldl_cons, List.foldl_nil]
    refine ⟨?_, hreads1⟩
    rw [hstep, hres, List.take_succ, List.getElem?_eq_getElem hk1, List.flatMap_append,
      List.append_assoc]
    congr 1
    have hinv := isInvertedWith_of_corners ar hcorner
    simp only [List.get_eq_getElem] at hinv
    simp [hinv]

theorem overlapFaceWith_resolved (ar : FloatArith) (ind : Indeterminate) (mesh : Mesh)
    (st : OverlapState) (poly : Polygon) (hst : st.vtxMap = StdMap.empty)
    (hsome : poly.triangles.isSome = true)
    (hc : ∀ t ∈ poly.triangles.getD [], (triangleCorners mesh poly t).isSome = true) :
    (overlapFaceWith ar ind mesh st poly).resultArray
        = st.resultArray ++ faceEntriesWith ar mesh poly
      ∧ (overlapFaceWith ar ind mesh st poly).vtxMap = StdMap.empty := by
  obtain ⟨ts, hts⟩ := Option.isSome_iff_exists.mp hsome
  rw [hts] at hc
  simp only [Option.getD_some] at hc
  refine ⟨?_, rfl⟩
  have hfold := (overlapTrianglesWith_fold ar ind mesh poly ts hts hc
    ⟨st.resultArray, fillVtxMap poly.getVertices 0 StdMap.empty, [], st.u, st.v,
      st.uvPointArray⟩
    (fun _ => rfl) ts.length (le_refl _)).1
  unfold overlapFaceWith faceEntriesWith
  simp only [Polygon.numTriangles, hts, Option.map_some', Option.getD_some, Int.toNat_ofNat,
    hst]
  rw [hfold, List.take_length]

theorem overlapFacesWith_fold (ar : FloatArith) (ind : Indeterminate) (mesh : Mesh) :
    ∀ (ps : List Polygon) (st : OverlapState), st.vtxMap = StdMap.empty →
      (∀ poly ∈ ps, poly.triangles.isSome = true ∧
        ∀ t ∈ poly.triangles.getD [], (triangleCorners mesh poly t).isSome = true) →
      (ps.foldl (overlapFaceWith ar ind mesh) st).resultArray
        = st.resultArray ++ ps.flatMap (faceEntriesWith ar mesh) := by
  intro ps
  induction ps with
  | nil => intro st _ _; simp
  | cons p ps ih =>
    intro st hst hok
    obtain ⟨h1, h2⟩ := hok p (List.mem_cons_self p ps)
    obtain ⟨hres, hmap⟩ := overlapFaceWith_resolved ar ind mesh st p hst h1 h2
    rw [List.foldl_cons, ih _ hmap (fun q hq => hok q (List.mem_cons_of_mem p hq)), hres,
      List.flatMap_cons, List.append_assoc]

theorem findOverlapsWith_eq_entries (ar : FloatArith) (ind : Indeterminate)
    (self : UvChecker) (hok : OverlapLookupsOk self.mDagPath) :
    findOverlapsWith ar ind self
      = ⟨MStatus.kSuccess, some (overlapEntriesWith ar self.mDagPath)⟩ := by
  unfold findOverlapsWith overlapEntriesWith
  simp only [overlapFacesWith_fold ar ind self.mDagPath self.mDagPath.polygons
    ⟨[], ind.numTriangles, StdMap.empty, ind.u, ind.v, ind.uvPointArray⟩ rfl hok,
    List.nil_append]

theorem findOverlapsExact_eq_entries (ind : Indeterminate) (self : UvChecker)
    (hok : OverlapLookupsOk self.mDagPath) :
    findOverlapsWith exactArith ind self
      = ⟨MStatus.kSuccess, some (overlapEntriesExact self.mDagPath)⟩ :=
  findOverlapsWith_eq_entries exactArith ind self hok

theorem findOverlaps_eq_overlapEntries (ind : Indeterminate) (self : UvChecker)
    (hok : OverlapLookupsOk self.mDagPath) :
    self.findOverlaps ind = ⟨MStatus.kSuccess, some (overlapEntries self.mDagPath)⟩ :=
  findOverlapsWith_eq_entries binary32 ind self hok

theorem faceEntries_eq_replicate (mesh : Mesh) (poly : Polygon) :
    faceEntries mesh poly
      = List.replicate (invertedCount mesh poly) (componentName mesh (poly.index : Int)) := by
  unfold faceEntries invertedCount
  induction poly.triangles.getD [] with
  | nil => rfl
  | cons t ts ih =>
    rw [List.flatMap_cons, ih, List.countP_cons]
    cases isInverted mesh poly t
    · simp
    · simp [List.replicate_succ]

/-! ## The UDIM pass -/

theorem StdSet.mem_insert (x y : Int) (s : List Int) :
    y ∈ StdSet.insert x s ↔ y = x ∨ y ∈ s := by
  induction s with
  | nil => simp [StdSet.insert]
  | cons z zs ih =>
    unfold StdSet.insert
    split
    · simp
    · split
      · rename_i h2
        subst h2
        simp
      · simp only [List.mem_cons, ih]
        tauto

theorem StdSet.insert_sorted (x : Int) (s : List Int) (h : s.Sorted (· < ·)) :
    (StdSet.insert x s).Sorted (· < ·) := by
  induction s with
  | nil => simp [StdSet.insert]
  | cons z zs ih =>
    obtain ⟨hz, hzs⟩ := List.sorted_cons.mp h
    unfold StdSet.insert
    split
    · rename_i hxz
      refine List.sorted_cons.mpr ⟨?_, h⟩
      intro b hb
      rcases List.mem_cons.mp hb with rfl | hb
      · exact hxz
      · exact lt_trans hxz (hz b hb)
    · split
      · exact h
      · rename_i h1 h2
        refine List.sorted_cons.mpr ⟨?_, ih hzs⟩
        intro b hb
        rcases (StdSet.mem_insert x b zs).mp hb with rfl | hb
        · omega
        · exact hz b hb

theorem Mesh.getUVIndex_eq_some {mesh : Mesh} {poly : Polygon} {i a : Int} {pa : ℚ × ℚ} :
    mesh.getUVIndex poly i = some (a, pa)
      ↔ poly.getUVIndex i = some a ∧ mesh.getUV a = some pa := by
  constructor
  · intro h
    unfold Mesh.getUVIndex at h
    split at h
    · simp at h
    · rename_i uvId h1
      split at h
      · simp at h
      · rename_i uv h2
        simp only [Option.some.injEq, Prod.mk.injEq] at h
        obtain ⟨rfl, h3⟩ := h
        exact ⟨h1, by rw [h2, ← h3]⟩
  · rintro ⟨h1, h2⟩
    unfold Mesh.getUVIndex
    rw [h1]
    simp only
    rw [h2]

theorem nextPosition_eq_mod (n i : Nat) (hi : i < n) :
    (if (i : Int) = (n : Int) - 1 then (0 : Int) else (i : Int) + 1)
      = (((i + 1) % n : Nat) : Int) := by
  by_cases h : i + 1 = n
  · have h1 : (i : Int) = (n : Int) - 1 := by omega
    rw [if_pos h1, h, Nat.mod_self]
    rfl
  · have h1 : ¬ (i : Int) = (n : Int) - 1 := by omega
    rw [if_neg h1, Nat.mod_eq_of_lt (by omega)]
    push_cast
    rfl

theorem udimEdge_resolved (mesh : Mesh) (poly : Polygon) (st : UdimLocals × List Int)
    (i : Nat) (hi : i < poly.vertices.length) (a b : Int) (pa pb : ℚ × ℚ)
    (ha : mesh.getUVIndex poly (i : Int) = some (a, pa))
    (hb : mesh.getUVIndex poly (((i + 1) % poly.vertices.length : Nat) : Int) = some (b, pb)) :
    (udimEdge mesh poly poly.polygonVertexCount st i).2
      = if udimTile pa = udimTile pb then st.2
        else StdSet.insert b (StdSet.insert a st.2) := by
  obtain ⟨ha1, ha2⟩ := Mesh.getUVIndex_eq_some.mp ha
  obtain ⟨hb1, hb2⟩ := Mesh.getUVIndex_eq_some.mp hb
  have hnext : (if (i : Int) = poly.polygonVertexCount - 1 then poly.getUVIndex 0
      else poly.getUVIndex ((i : Int) + 1)) = some b := by
    rw [← hb1, ← nextPosition_eq_mod poly.vertices.length i hi]
    unfold Polygon.polygonVertexCount
    split <;> rfl
  unfold udimEdge
  simp only [ha1, hnext, Option.getD_some, ha2, hb2]
  have htile : udimTile pa = udimTile pb
      ↔ (Int.floor pa.1 = Int.floor pb.1 ∧ Int.floor pa.2 = Int.floor pb.2) := by
    unfold udimTile
    exact Prod.mk.injEq _ _ _ _ ▸ Iff.rfl
  by_cases h : udimTile pa = udimTile pb
  · rw [if_pos h, if_pos (htile.mp h)]
  · rw [if_neg h, if_neg (fun hh => h (htile.mpr hh))]

theorem udimEdge_shape (mesh : Mesh) (poly : Polygon) (vCount : Int)
    (st : UdimLocals × List Int) (i : Nat) :
    (udimEdge mesh poly vCount st i).2 = st.2
      ∨ ∃ a b, (udimEdge mesh poly vCount st i).2
          = StdSet.insert b (StdSet.insert a st.2) := by
  unfold udimEdge
  simp only [apply_ite Prod.snd]
  split_ifs
  all_goals first
    | exact Or.inl rfl
    | exact Or.inr ⟨_, _, rfl⟩

theorem udimEdge_sorted (mesh : Mesh) (poly : Polygon) (vCount : Int)
    (st : UdimLocals × List Int) (i : Nat) (h : st.2.Sorted (· < ·)) :
    (udimEdge mesh poly vCount st i).2.Sorted (· < ·) := by
  rcases udimEdge_shape mesh poly vCount st i with h1 | ⟨a, b, h1⟩
  · rw [h1]
    exact h
  · rw [h1]
    exact StdSet.insert_sorted _ _ (StdSet.insert_sorted _ _ h)

theorem udimEdge_subset (mesh : Mesh) (poly : Polygon) (vCount : Int)
    (st : UdimLocals × List Int) (i : Nat) (x : Int) (h : x ∈ st.2) :
    x ∈ (udimEdge mesh poly vCount st i).2 := by
  rcases udimEdge_shape mesh poly vCount st i with h1 | ⟨a, b, h1⟩
  · rw [h1]
    exact h
  · rw [h1]
    exact (StdSet.mem_insert _ _ _).mpr (Or.inr ((StdSet.mem_insert _ _ _).mpr (Or.inr h)))

theorem udimEdges_sorted (mesh : Mesh) (poly : Polygon) (vCount : Int) :
    ∀ (l : List Nat) (st : UdimLocals × List Int), st.2.Sorted (· < ·) →
      (l.foldl (udimEdge mesh poly vCount) st).2.Sorted (· < ·) := by
  intro l
  induction l with
  | nil => intro st h; exact h
  | cons i l ih =>
    intro st h
    exact ih _ (udimEdge_sorted mesh poly vCount st i h)

theorem udimEdges_subset (mesh : Mesh) (poly : Polygon) (vCount : Int) (x : Int) :
    ∀ (l : List Nat) (st : UdimLocals × List Int), x ∈ st.2 →
      x ∈ (l.foldl (udimEdge mesh poly vCount) st).2 := by
  intro l
  induction l with
  | nil => intro st h; exact h
  | cons i l ih =>
    intro st h
    exact ih _ (udimEdge_subset mesh poly vCount st i x h)

theorem udimFace_sorted (mesh : Mesh) (st : UdimLocals × List Int) (poly : Polygon)
    (h : st.2.Sorted (· < ·)) : (udimFace mesh st poly).2.Sorted (· < ·) :=
  udimEdges_sorted mesh poly _ _ st h

theorem udimFace_subset (mesh : Mesh) (st : UdimLocals × List Int) (poly : Polygon)
    (x : Int) (h : x ∈ st.2) : x ∈ (udimFace mesh st poly).2 :=
  udimEdges_subset mesh poly _ x _ st h

theorem udimFaces_sorted (mesh : Mesh) :
    ∀ (ps : List Polygon) (st : UdimLocals × List Int), st.2.Sorted (· < ·) →
      (ps.foldl (udimFace mesh) st).2.Sorted (· < ·) := by
  intro ps
  induction ps with
  | nil => intro st h; exact h
  | cons p ps ih =>
    intro st h
    exact ih _ (udimFace_sorted mesh st p h)

theorem udimFaces_subset (mesh : Mesh) (x : Int) :
    ∀ (ps : List Polygon) (st : UdimLocals × List Int), x ∈ st.2 →
      x ∈ (ps.foldl (udimFace mesh) st).2 := by
  intro ps
  induction ps with
  | nil => intro st h; exact h
  | cons p ps ih =>
    intro st h
    exact ih _ (udimFace_subset mesh st p x h)

theorem udimIndexSet_sorted (ind : Indeterminate) (mesh : Mesh) :
    (udimIndexSet ind mesh).Sorted (· < ·) :=
  udimFaces_sorted mesh mesh.polygons (ind.udim, []) List.sorted_nil

theorem foldl_append_singleton {α β : Type} (f : α → β) :
    ∀ (l : List α) (init : List β),
      l.foldl (fun acc x => acc ++ [f x]) init = init ++ l.map f := by
  intro l
  induction l with
  | nil => intro init; simp
  | cons x xs ih =>
    intro init
    rw [List.foldl_cons, ih]
    simp

theorem udimIndexArray_eq_indexSet (ind : Indeterminate) (mesh : Mesh) :
    udimIndexArray ind mesh = udimIndexSet ind mesh := by
  unfold udimIndexArray
  have h := foldl_append_singleton (fun x : Int => x) (udimIndexSet ind mesh) []
  simpa using h

theorem formatIndices_eq_map (mesh : Mesh) (indexArray : List Int) :
    formatIndices mesh indexArray = indexArray.map (componentName mesh) := by
  unfold formatIndices
  have h := foldl_append_singleton (componentName mesh) indexArray []
  simpa using h

theorem udimFace_mem_of_crossing (mesh : Mesh) (st : UdimLocals × List Int)
    (poly : Polygon) (i : Nat) (a b : Int) (h : EdgeCrosses mesh poly i a b) :
    a ∈ (udimFace mesh st poly).2 ∧ b ∈ (udimFace mesh st poly).2 := by
  obtain ⟨hi, ha1, hb1, pa, pb, ha2, hb2, hne⟩ := h
  have ha := Mesh.getUVIndex_eq_some.mpr ⟨ha1, ha2⟩
  have hb := Mesh.getUVIndex_eq_some.mpr ⟨hb1, hb2⟩
  obtain ⟨l1, l2, hl⟩ := List.append_of_mem (List.mem_range.mpr hi)
  unfold udimFace
  simp only [Polygon.polygonVertexCount, Int.toNat_ofNat]
  rw [hl, List.foldl_append, List.foldl_cons]
  have hstep := udimEdge_resolved mesh poly
    (List.foldl (udimEdge mesh poly poly.polygonVertexCount) st l1) i hi a b pa pb
    ha hb
  rw [if_neg hne] at hstep
  unfold Polygon.polygonVertexCount at hstep
  constructor
  · apply udimEdges_subset
    rw [hstep]
    exact (StdSet.mem_insert _ _ _).mpr (Or.inr ((StdSet.mem_insert _ _ _).mpr (Or.inl rfl)))
  · apply udimEdges_subset
    rw [hstep]
    exact (StdSet.mem_insert _ _ _).mpr (Or.inl rfl)

theorem udimIndexSet_mem_of_crossing (ind : Indeterminate) (mesh : Mesh) (poly : Polygon)
    (hp : poly ∈ mesh.polygons) (i : Nat) (a b : Int) (h : EdgeCrosses mesh poly i a b) :
    a ∈ udimIndexSet ind mesh ∧ b ∈ udimIndexSet ind mesh := by
  obtain ⟨l1, l2, hl⟩ := List.append_of_mem hp
  unfold udimIndexSet
  rw [hl, List.foldl_append, List.foldl_cons]
  obtain ⟨h1, h2⟩ := udimFace_mem_of_crossing mesh
    (List.foldl (udimFace mesh) (ind.udim, []) l1) poly i a b h
  exact ⟨udimFaces_subset mesh a l2 _ h1, udimFaces_subset mesh b l2 _ h2⟩

theorem udimEdges_origin (mesh : Mesh) (poly : Polygon) (hp : poly ∈ mesh.polygons)
    (hok : ∀ i ∈ List.range poly.vertices.length,
      (mesh.getUVIndex poly (i : Int)).isSome = true) :
    ∀ (l : List Nat), (∀ i ∈ l, i < poly.vertices.length) →
      ∀ st : UdimLocals × List Int, (∀ x ∈ st.2, CrossingEndpoint mesh x) →
        ∀ x ∈ (l.foldl (udimEdge mesh poly poly.polygonVertexCount) st).2,
          CrossingEndpoint mesh x := by
  intro l
  induction l with
  | nil => intro _ st h; exact h
  | cons i l ih =>
    intro hl st h
    have hi : i < poly.vertices.length := hl i (List.mem_cons_self i l)
    have hnext : (i + 1) % poly.vertices.length < poly.vertices.length :=
      Nat.mod_lt _ (by omega)
    obtain ⟨⟨a, pa⟩, ha⟩ := Option.isSome_iff_exists.mp (hok i (List.mem_range.mpr hi))
    obtain ⟨⟨b, pb⟩, hb⟩ := Option.isSome_iff_exists.mp (hok _ (List.mem_range.mpr hnext))
    have hstep := udimEdge_resolved mesh poly st i hi a b pa pb ha hb
    rw [List.foldl_cons]
    apply ih (fun j hj => hl j (List.mem_cons_of_mem i hj))
    intro x hx
    rw [hstep] at hx
    by_cases htile : udimTile pa = udimTile pb
    · rw [if_pos htile] at hx
      exact h x hx
    · rw [if_neg htile] at hx
      obtain ⟨ha1, ha2⟩ := Mesh.getUVIndex_eq_some.mp ha
      obtain ⟨hb1, hb2⟩ := Mesh.getUVIndex_eq_some.mp hb
      have hedge : EdgeCrosses mesh poly i a b := ⟨hi, ha1, hb1, pa, pb, ha2, hb2, htile⟩
      rcases (StdSet.mem_insert _ _ _).mp hx with hxb | hx
      · exact ⟨poly, hp, i, a, b, hedge, Or.inr hxb⟩
      · rcases (StdSet.mem_insert _ _ _).mp hx with hxa | hx
        · exact ⟨poly, hp, i, a, b, hedge, Or.inl hxa⟩
        · exact h x hx

theorem udimFaces_origin (mesh : Mesh) (hok : UdimLookupsOk mesh) :
    ∀ (ps : List Polygon), (∀ p ∈ ps, p ∈ mesh.polygons) →
      ∀ st : UdimLocals × List Int, (∀ x ∈ st.2, CrossingEndpoint mesh x) →
        ∀ x ∈ (ps.foldl (udimFace mesh) st).2, CrossingEndpoint mesh x := by
  intro ps
  induction ps with
  | nil => intro _ st h; exact h
  | cons p ps ih =>
    intro hps st h
    have hp : p ∈ mesh.polygons := hps p (List.mem_cons_self p ps)
    rw [List.foldl_cons]
    apply ih (fun q hq => hps q (List.mem_cons_of_mem p hq))
    unfold udimFace
    exact udimEdges_origin mesh p hp (hok p hp) _
      (by
        intro i hi
        simpa [Polygon.polygonVertexCount] using hi)
      st h

theorem udimIndexSet_origin (ind : Indeterminate) (mesh : Mesh) (hok : UdimLookupsOk mesh) :
    ∀ x ∈ udimIndexSet ind mesh, CrossingEndpoint mesh x :=
  udimFaces_origin mesh hok mesh.polygons (fun _ h => h) (ind.udim, [])
    (fun x hx => absurd hx (List.not_mem_nil x))

theorem findUdimIntersections_result (ind : Indeterminate) (self : UvChecker) :
    (self.findUdimIntersections ind).result
      = some ((udimIndexArray ind self.mDagPath).map (componentName self.mDagPath)) := by
  unfold UvChecker.findUdimIntersections
  simp only [formatIndices_eq_map]


theorem signedArea_reverse (A B C : UVPoint) :
    signedArea C B A = - signedArea A B C := by
  unfold signedArea
  ring

theorem signedArea_rotate (A B C : UVPoint) :
    signedArea B C A = signedArea A B C := by
  unfold signedArea
  ring

theorem renders_map (mesh : Mesh) (ns : List Int) :
    Renders mesh.fullPathName ns (ns.map (componentName mesh)) := by
  refine ⟨List.length_map _ _, ?_⟩
  intro i h
  rw [List.get?_eq_getElem?, List.getElem?_map, List.getElem?_eq_getElem h]
  rfl

theorem overlapEntries_eq_map (mesh : Mesh) :
    overlapEntries mesh = (overlapFaceIndices mesh).map (componentName mesh) := by
  unfold overlapEntries overlapFaceIndices faceEntries
  induction mesh.polygons with
  | nil => rfl
  | cons p ps ih =>
    rw [List.flatMap_cons, List.flatMap_cons, List.map_append, ih]
    congr 1
    induction p.triangles.getD [] with
    | nil => rfl
    | cons t ts iht =>
      rw [List.flatMap_cons, List.flatMap_cons, List.map_append, iht]
      congr 1
      cases isInverted mesh p t <;> rfl

/-! ## Rounding to binary32 -/

theorem F32.pow2_eq_zpow (k : Int) : F32.pow2 k = (2 : ℚ) ^ k := by
  cases k with
  | ofNat n =>
    simp only [F32.pow2, Int.ofNat_eq_coe, zpow_natCast]
    push_cast
    rfl
  | negSucc n =>
    simp only [F32.pow2, zpow_negSucc]
    push_cast
    rw [one_div]

theorem F32.pow2_pos (k : Int) : 0 < F32.pow2 k := by
  rw [F32.pow2_eq_zpow]
  positivity

theorem F32.pow2_add (a b : Int) : F32.pow2 (a + b) = F32.pow2 a * F32.pow2 b := by
  simp only [F32.pow2_eq_zpow]
  exact zpow_add₀ (by norm_num) a b

theorem F32.pow2_sub (a b : Int) : F32.pow2 (a - b) = F32.pow2 a / F32.pow2 b := by
  simp only [F32.pow2_eq_zpow]
  exact zpow_sub₀ (by norm_num) a b

theorem F32.pow2_natCast (n : Nat) : F32.pow2 (n : Int) = (2 : ℚ) ^ n := by
  rw [F32.pow2_eq_zpow, zpow_natCast]

theorem F32.pow2_le_pow2 {a b : Int} : F32.pow2 a ≤ F32.pow2 b ↔ a ≤ b := by
  simp only [F32.pow2_eq_zpow]
  exact (zpow_right_strictMono₀ (by norm_num : (1 : ℚ) < 2)).le_iff_le

theorem F32.pow2_lt_pow2 {a b : Int} : F32.pow2 a < F32.pow2 b ↔ a < b := by
  simp only [F32.pow2_eq_zpow]
  exact (zpow_right_strictMono₀ (by norm_num : (1 : ℚ) < 2)).lt_iff_lt

theorem F32.bitLengthAux_zero (fuel : Nat) : F32.bitLengthAux fuel 0 = 0 := by
  cases fuel <;> simp [F32.bitLengthAux]

theorem F32.bitLengthAux_bounds :
    ∀ (fuel n : Nat), n ≤ fuel → 0 < n →
      2 ^ F32.bitLengthAux fuel n ≤ 2 * n ∧ n < 2 ^ F32.bitLengthAux fuel n := by
  intro fuel
  induction fuel with
  | zero => intro n h1 h2; omega
  | succ fuel ih =>
    intro n h1 h2
    have hn : n ≠ 0 := by omega
    simp only [F32.bitLengthAux, if_neg hn]
    by_cases hhalf : n / 2 = 0
    · rw [hhalf, F32.bitLengthAux_zero]
      have : n = 1 := by omega
      subst this
      norm_num
    · obtain ⟨hlo, hhi⟩ := ih (n / 2) (by omega) (by omega)
      rw [pow_succ]
      generalize 2 ^ F32.bitLengthAux fuel (n / 2) = p at hlo hhi
      constructor <;> omega

theorem F32.bitLength_bounds (n : Nat) (hn : 0 < n) :
    2 ^ F32.bitLength n ≤ 2 * n ∧ n < 2 ^ F32.bitLength n :=
  F32.bitLengthAux_bounds n n (le_refl n) hn

theorem F32.abs_eq_div (q : ℚ) : |q| = (q.num.natAbs : ℚ) / (q.den : ℚ) := by
  conv_lhs => rw [← Rat.num_div_den q]
  rw [abs_div, Nat.abs_cast, Nat.cast_natAbs, Int.cast_abs]

theorem F32.exponent_spec (q : ℚ) (hq : q ≠ 0) :
    -126 ≤ F32.exponent q ∧ |q| < F32.pow2 (F32.exponent q + 1)
      ∧ (F32.exponent q = -126 ∨ F32.pow2 (F32.exponent q) ≤ |q|) := by
  have hnum : 0 < q.num.natAbs := Int.natAbs_pos.mpr (Rat.num_ne_zero.mpr hq)
  have hden : 0 < q.den := q.den_pos
  obtain ⟨n1, n2⟩ := F32.bitLength_bounds q.num.natAbs hnum
  obtain ⟨d1, d2⟩ := F32.bitLength_bounds q.den hden
  have habs := F32.abs_eq_div q
  have hD : (0 : ℚ) < (q.den : ℚ) := by exact_mod_cast hden
  have hupper : |q| < F32.pow2
      ((F32.bitLength q.num.natAbs : Int) - (F32.bitLength q.den : Int) + 1) := by
    rw [F32.pow2_add, F32.pow2_sub, F32.pow2_natCast, F32.pow2_natCast, habs,
      F32.pow2_eq_zpow, zpow_one, div_mul_eq_mul_div, div_lt_div_iff₀ hD (by positivity)]
    have h : q.num.natAbs * 2 ^ F32.bitLength q.den
        < 2 ^ F32.bitLength q.num.natAbs * 2 * q.den := by
      calc q.num.natAbs * 2 ^ F32.bitLength q.den
          < 2 ^ F32.bitLength q.num.natAbs * 2 ^ F32.bitLength q.den :=
            Nat.mul_lt_mul_of_pos_right n2 (by positivity)
        _ ≤ 2 ^ F32.bitLength q.num.natAbs * (2 * q.den) := Nat.mul_le_mul_left _ d1
        _ = 2 ^ F32.bitLength q.num.natAbs * 2 * q.den := by ring
    exact_mod_cast h
  have hlower : F32.pow2
      ((F32.bitLength q.num.natAbs : Int) - (F32.bitLength q.den : Int) - 1) ≤ |q| := by
    rw [F32.pow2_sub, F32.pow2_sub, F32.pow2_natCast, F32.pow2_natCast, habs,
      F32.pow2_eq_zpow, zpow_one, div_div, div_le_div_iff₀ (by positivity) hD]
    have h : 2 ^ F32.bitLength q.num.natAbs * q.den
        ≤ q.num.natAbs * (2 ^ F32.bitLength q.den * 2) := by
      calc 2 ^ F32.bitLength q.num.natAbs * q.den
          ≤ (2 * q.num.natAbs) * q.den := Nat.mul_le_mul_right _ n1
        _ ≤ (2 * q.num.natAbs) * 2 ^ F32.bitLength q.den :=
            Nat.mul_le_mul_left _ (le_of_lt d2)
        _ = q.num.natAbs * (2 ^ F32.bitLength q.den * 2) := by ring
    exact_mod_cast h
  unfold F32.exponent
  simp only
  generalize (F32.bitLength q.num.natAbs : Int) - (F32.bitLength q.den : Int) = e0
    at hupper hlower
  by_cases hcase : F32.pow2 e0 ≤ |q|
  · rw [if_pos hcase]
    refine ⟨le_max_right _ _, ?_, ?_⟩
    · exact lt_of_lt_of_le hupper (F32.pow2_le_pow2.mpr (by omega))
    · rcases le_total e0 (-126) with h | h
      · exact Or.inl (max_eq_right h)
      · rw [max_eq_left h]
        exact Or.inr hcase
  · rw [if_neg hcase]
    refine ⟨le_max_right _ _, ?_, ?_⟩
    · have h1 : |q| < F32.pow2 (e0 - 1 + 1) := by
        rw [sub_add_cancel]
        exact not_le.mp hcase
      exact lt_of_lt_of_le h1 (F32.pow2_le_pow2.mpr (by omega))
    · rcases le_total (e0 - 1) (-126) with h | h
      · exact Or.inl (max_eq_right h)
      · rw [max_eq_left h]
        exact Or.inr hlower

theorem F32.exponent_neg (q : ℚ) : F32.exponent (-q) = F32.exponent q := by
  unfold F32.exponent
  simp only [Rat.neg_num, Int.natAbs_neg, Rat.neg_den, abs_neg]

theorem F32.ulp_neg (q : ℚ) : F32.ulp (-q) = F32.ulp q := by
  unfold F32.ulp
  rw [F32.exponent_neg]

theorem F32.ulp_pos (q : ℚ) : 0 < F32.ulp q :=
  F32.pow2_pos _

theorem F32.roundHalfEven_intCast (m : Int) : F32.roundHalfEven (m : ℚ) = m := by
  unfold F32.roundHalfEven
  rw [Int.floor_intCast, sub_self, if_pos (by norm_num)]

theorem F32.roundHalfEven_bounds (x : ℚ) :
    Int.floor x ≤ F32.roundHalfEven x ∧ F32.roundHalfEven x ≤ Int.floor x + 1 := by
  unfold F32.roundHalfEven
  split_ifs <;> omega

theorem F32.roundHalfEven_abs_le (x : ℚ) (B : Int) (h : |x| < (B : ℚ)) :
    |F32.roundHalfEven x| ≤ B := by
  obtain ⟨h1, h2⟩ := F32.roundHalfEven_bounds x
  obtain ⟨hlo, hhi⟩ := abs_lt.mp h
  have hfloor_lo : -B ≤ Int.floor x := by
    apply Int.le_floor.mpr
    push_cast
    exact le_of_lt hlo
  have hfloor_hi : Int.floor x < B := Int.floor_lt.mpr hhi
  exact abs_le.mpr ⟨by omega, by omega⟩

theorem F32.roundHalfEven_neg (x : ℚ) :
    F32.roundHalfEven (-x) = - F32.roundHalfEven x := by
  have hf1 : (Int.floor x : ℚ) ≤ x := Int.floor_le x
  have hf2 : x < (Int.floor x : ℚ) + 1 := Int.lt_floor_add_one x
  by_cases hint : x = (Int.floor x : ℚ)
  · rw [hint, ← Int.cast_neg, F32.roundHalfEven_intCast, F32.roundHalfEven_intCast]
  · have hlt : (Int.floor x : ℚ) < x := lt_of_le_of_ne hf1 (fun h => hint h.symm)
    have hfloor : Int.floor (-x) = - Int.floor x - 1 := by
      rw [Int.floor_eq_iff]
      push_cast
      constructor <;> linarith
    unfold F32.roundHalfEven
    rw [hfloor]
    push_cast
    by_cases h1 : x - (Int.floor x : ℚ) < 1 / 2
    · have h2 : ¬ (-x - (-(Int.floor x : ℚ) - 1) < 1 / 2) := by linarith
      have h3 : 1 / 2 < -x - (-(Int.floor x : ℚ) - 1) := by linarith
      rw [if_pos h1, if_neg h2, if_pos h3]
      omega
    · by_cases h4 : 1 / 2 < x - (Int.floor x : ℚ)
      · have h5 : -x - (-(Int.floor x : ℚ) - 1) < 1 / 2 := by linarith
        rw [if_neg h1, if_pos h4, if_pos h5]
        omega
      · have h6 : ¬ (-x - (-(Int.floor x : ℚ) - 1) < 1 / 2) := by linarith
        have h7 : ¬ (1 / 2 < -x - (-(Int.floor x : ℚ) - 1)) := by linarith
        rw [if_neg h1, if_neg h4, if_neg h6, if_neg h7]
        split_ifs <;> omega

theorem F32.roundNearest_zero : F32.roundNearest 0 = 0 := by
  unfold F32.roundNearest
  rw [zero_div]
  have h := F32.roundHalfEven_intCast 0
  simp only [Int.cast_zero] at h
  rw [h]
  simp

theorem F32.roundNearest_neg (q : ℚ) : F32.roundNearest (-q) = - F32.roundNearest q := by
  unfold F32.roundNearest
  rw [F32.ulp_neg, neg_div, F32.roundHalfEven_neg]
  push_cast
  ring

theorem F32.roundNearest_of_int (q : ℚ) (M : Int) (h : q / F32.ulp q = (M : ℚ)) :
    F32.roundNearest q = q := by
  unfold F32.roundNearest
  rw [h, F32.roundHalfEven_intCast, ← h]
  exact div_mul_cancel₀ q (ne_of_gt (F32.ulp_pos q))

theorem F32.roundNearest_grid (N k : Int) (hk : -126 ≤ k) (hN : |N| ≤ 2 ^ 24) :
    F32.roundNearest ((N : ℚ) * F32.pow2 (k - 23)) = (N : ℚ) * F32.pow2 (k - 23) := by
  by_cases hzero : N = 0
  · subst hzero
    simp only [Int.cast_zero, zero_mul]
    exact F32.roundNearest_zero
  · have hr : (N : ℚ) * F32.pow2 (k - 23) ≠ 0 :=
      mul_ne_zero (by exact_mod_cast hzero) (ne_of_gt (F32.pow2_pos _))
    obtain ⟨hge, _, hlow⟩ := F32.exponent_spec _ hr
    generalize he : F32.exponent ((N : ℚ) * F32.pow2 (k - 23)) = e at hge hlow
    have habsN : |(N : ℚ)| ≤ 2 ^ 24 := by
      have : ((|N| : Int) : ℚ) ≤ ((2 ^ 24 : Int) : ℚ) := by exact_mod_cast hN
      simpa using this
    have hle : e ≤ k + 1 := by
      rcases hlow with h | h
      · omega
      · apply F32.pow2_le_pow2.mp
        calc F32.pow2 e ≤ |(N : ℚ) * F32.pow2 (k - 23)| := h
          _ = |(N : ℚ)| * F32.pow2 (k - 23) := by
            rw [abs_mul, abs_of_pos (F32.pow2_pos _)]
          _ ≤ 2 ^ 24 * F32.pow2 (k - 23) :=
            mul_le_mul_of_nonneg_right habsN (le_of_lt (F32.pow2_pos _))
          _ = F32.pow2 (k + 1) := by
            have h24 : (2 : ℚ) ^ 24 = F32.pow2 24 := by
              rw [F32.pow2_eq_zpow]
              norm_num
            rw [h24, ← F32.pow2_add]
            congr 1
            omega
    have hulp : F32.ulp ((N : ℚ) * F32.pow2 (k - 23)) = F32.pow2 (e - 23) := by
      unfold F32.ulp
      rw [he]
    rcases lt_or_eq_of_le hle with hlt | heq
    · have hd : 0 ≤ k - e := by omega
      obtain ⟨d, hdk⟩ := Int.eq_ofNat_of_zero_le hd
      apply F32.roundNearest_of_int _ (N * 2 ^ d)
      rw [hulp, mul_div_assoc, ← F32.pow2_sub]
      have : k - 23 - (e - 23) = (d : Int) := by omega
      rw [this, F32.pow2_natCast]
      push_cast
      ring
    · have hbig : (2 : ℚ) ^ 24 ≤ |(N : ℚ)| := by
        rcases hlow with h | h
        · omega
        · rw [heq, abs_mul, abs_of_pos (F32.pow2_pos _)] at h
          have h24 : F32.pow2 (k + 1) = 2 ^ 24 * F32.pow2 (k - 23) := by
            have h24' : (2 : ℚ) ^ 24 = F32.pow2 24 := by
              rw [F32.pow2_eq_zpow]
              norm_num
            rw [h24', ← F32.pow2_add]
            congr 1
            omega
          rw [h24] at h
          exact le_of_mul_le_mul_right h (F32.pow2_pos _)
      have hNabs : |N| = 2 ^ 24 := by
        apply le_antisymm hN
        have : ((2 ^ 24 : Int) : ℚ) ≤ ((|N| : Int) : ℚ) := by
          push_cast
          exact hbig
        exact_mod_cast this
      have heven : ∃ M : Int, N = 2 * M := by
        rcases abs_cases N with ⟨h1, _⟩ | ⟨h1, _⟩
        · exact ⟨2 ^ 23, by omega⟩
        · exact ⟨-2 ^ 23, by omega⟩
      obtain ⟨M, hM⟩ := heven
      apply F32.roundNearest_of_int _ M
      rw [hulp, mul_div_assoc, ← F32.pow2_sub, heq]
      have : k - 23 - (k + 1 - 23) = -1 := by omega
      rw [this, hM, F32.pow2_eq_zpow]
      push_cast
      norm_num
      ring

theorem F32.roundNearest_idem (q : ℚ) :
    F32.roundNearest (F32.roundNearest q) = F32.roundNearest q := by
  by_cases hq : q = 0
  · subst hq
    rw [F32.roundNearest_zero, F32.roundNearest_zero]
  · obtain ⟨hge, hup, _⟩ := F32.exponent_spec q hq
    have hgrid : F32.roundNearest q
        = ((F32.roundHalfEven (q / F32.ulp q) : Int) : ℚ) * F32.pow2 (F32.exponent q - 23) :=
      rfl
    rw [hgrid]
    apply F32.roundNearest_grid _ _ hge
    apply F32.roundHalfEven_abs_le
    rw [abs_div, abs_of_pos (F32.ulp_pos q), div_lt_iff₀ (F32.ulp_pos q)]
    have h24 : (((2 ^ 24 : Int) : ℚ)) * F32.ulp q = F32.pow2 (F32.exponent q + 1) := by
      unfold F32.ulp
      have h24' : (((2 ^ 24 : Int) : ℚ)) = F32.pow2 24 := by
        rw [F32.pow2_eq_zpow]
        norm_num
      rw [h24', ← F32.pow2_add]
      congr 1
      omega
    rw [h24]
    exact hup

theorem F32.ofRat_zero : F32.ofRat 0 = F32.finite 0 := by
  unfold F32.ofRat
  rw [F32.roundNearest_zero, if_neg]
  rw [abs_zero]
  unfold F32.maxFinite
  norm_num

theorem F32.ofRat_neg (q : ℚ) : F32.ofRat (-q) = F32.neg (F32.ofRat q) := by
  unfold F32.ofRat
  rw [F32.roundNearest_neg, abs_neg]
  by_cases h : F32.maxFinite < |F32.roundNearest q|
  · rw [if_pos h, if_pos h]
    have hq : q ≠ 0 := by
      intro h0
      rw [h0, F32.roundNearest_zero, abs_zero] at h
      unfold F32.maxFinite at h
      norm_num at h
    unfold F32.neg
    simp only [F32.inf.injEq]
    rcases lt_or_gt_of_ne hq with hneg | hpos
    · have h1 : ¬ (-q < 0) := by linarith
      simp [h1, hneg]
    · have h1 : -q < 0 := by linarith
      have h2 : ¬ (q < 0) := by linarith
      simp [h1, h2]
  · rw [if_neg h, if_neg h]
    rfl

theorem F32.ofRat_idem (q r : ℚ) (h : F32.ofRat q = F32.finite r) :
    F32.ofRat r = F32.finite r := by
  unfold F32.ofRat at h
  by_cases hover : F32.maxFinite < |F32.roundNearest q|
  · rw [if_pos hover] at h
    exact absurd h (by simp)
  · rw [if_neg hover] at h
    have hr : F32.roundNearest q = r := F32.finite.inj h
    unfold F32.ofRat
    rw [← hr, F32.roundNearest_idem, if_neg hover]

/-! ## Operations on binary32 values -/

theorem F32.ofRat_isValue (q : ℚ) : F32.IsValue (F32.ofRat q) := by
  cases h : F32.ofRat q with
  | finite r => exact F32.ofRat_idem q r h
  | inf s => trivial
  | nan => trivial

theorem F32.neg_neg_value (x : F32) : F32.neg (F32.neg x) = x := by
  cases x <;> simp [F32.neg]

theorem F32.sub_swap (a b : ℚ) :
    F32.sub (F32.finite a) (F32.finite b)
      = F32.neg (F32.sub (F32.finite b) (F32.finite a)) := by
  have h1 : F32.sub (F32.finite a) (F32.finite b) = F32.ofRat (a + -b) := rfl
  have h2 : F32.sub (F32.finite b) (F32.finite a) = F32.ofRat (b + -a) := rfl
  rw [h1, h2, ← F32.ofRat_neg]
  congr 1
  ring

theorem F32.sub_finite_self (a : ℚ) : F32.sub (F32.finite a) (F32.finite a) = F32.finite 0 := by
  unfold F32.sub
  simp only [F32.neg, F32.add]
  rw [add_neg_cancel, F32.ofRat_zero]

theorem F32.mul_finite_zero (a : ℚ) : F32.mul (F32.finite a) (F32.finite 0) = F32.finite 0 := by
  simp only [F32.mul]
  rw [mul_zero, F32.ofRat_zero]

theorem F32.mul_neg_value (x y : F32) : F32.mul x (F32.neg y) = F32.neg (F32.mul x y) := by
  cases x with
  | finite a =>
    cases y with
    | finite b =>
      have h1 : F32.mul (F32.finite a) (F32.neg (F32.finite b)) = F32.ofRat (a * -b) := rfl
      have h2 : F32.mul (F32.finite a) (F32.finite b) = F32.ofRat (a * b) := rfl
      rw [h1, h2, ← F32.ofRat_neg]
      congr 1
      ring
    | inf s =>
      simp only [F32.neg, F32.mul]
      by_cases ha : a = 0
      · simp [ha, F32.neg]
      · simp only [ha, if_false, F32.neg]
        cases s <;> cases decide (a < 0) <;> rfl
    | nan => rfl
  | inf s =>
    cases y with
    | finite b =>
      simp only [F32.neg, F32.mul]
      by_cases hb : b = 0
      · simp [hb, F32.neg]
      · have hb' : -b ≠ 0 := neg_ne_zero.mpr hb
        simp only [hb, hb', if_false, F32.neg]
        rcases lt_or_gt_of_ne hb with h | h
        · have h1 : ¬ (-b < 0) := by linarith
          cases s <;> simp [h, h1]
        · have h1 : -b < 0 := by linarith
          have h2 : ¬ (b < 0) := by linarith
          cases s <;> simp [h1, h2]
    | inf t =>
      simp only [F32.neg, F32.mul]
      cases s <;> cases t <;> rfl
    | nan => rfl
  | nan => cases y <;> rfl

theorem F32.mul_isValue (x y : F32) : F32.IsValue (F32.mul x y) := by
  cases x with
  | finite a =>
    cases y with
    | finite b => exact F32.ofRat_isValue _
    | inf s =>
      simp only [F32.mul]
      split_ifs <;> trivial
    | nan => trivial
  | inf s =>
    cases y with
    | finite b =>
      simp only [F32.mul]
      split_ifs <;> trivial
    | inf t => trivial
    | nan => trivial
  | nan => cases y <;> trivial

theorem F32.add_neg_self (x : F32) :
    F32.add x (F32.neg x) = F32.finite 0 ∨ F32.add x (F32.neg x) = F32.nan := by
  cases x with
  | finite a =>
    left
    simp only [F32.neg, F32.add]
    rw [add_neg_cancel, F32.ofRat_zero]
  | inf s =>
    right
    simp only [F32.neg, F32.add]
    cases s <;> rfl
  | nan => exact Or.inr rfl

theorem F32.zero_add_value {x : F32} (h : F32.IsValue x) : F32.add (F32.finite 0) x = x := by
  cases x with
  | finite r =>
    simp only [F32.add]
    rw [zero_add]
    exact h
  | inf s => rfl
  | nan => rfl

theorem F32.add_zero_value {x : F32} (h : F32.IsValue x) : F32.add x (F32.finite 0) = x := by
  cases x with
  | finite r =>
    simp only [F32.add]
    rw [add_zero]
    exact h
  | inf s => rfl
  | nan => rfl

theorem F32.half_zero : F32.half (F32.finite 0) = F32.finite 0 := by
  simp only [F32.half]
  rw [zero_div, F32.ofRat_zero]

theorem F32.isNegative_of_zero_or_nan {x : F32} (h : x = F32.finite 0 ∨ x = F32.nan) :
    F32.isNegative x = false := by
  rcases h with rfl | rfl
  · simp [F32.isNegative]
  · rfl

theorem F32.isNegative_isPositive (x : F32) (h : F32.isPositive x = true) :
    F32.isNegative x = false := by
  cases x with
  | finite a =>
    simp only [F32.isPositive, decide_eq_true_eq] at h
    simp only [F32.isNegative, decide_eq_false_iff_not, not_lt]
    exact le_of_lt h
  | inf s =>
    simp only [F32.isPositive] at h
    simp only [F32.isNegative]
    cases s
    · rfl
    · exact absurd h (by simp)
  | nan => rfl

theorem computedArea_eq (A B C : UVPoint) :
    computedArea A B C
      = F32.half (F32.add
          (F32.add
            (F32.mul (F32.finite A.u) (F32.sub (F32.finite B.v) (F32.finite C.v)))
            (F32.mul (F32.finite B.u) (F32.sub (F32.finite C.v) (F32.finite A.v))))
          (F32.mul (F32.finite C.u) (F32.sub (F32.finite A.v) (F32.finite B.v)))) := rfl

theorem half_add_zero_of_cancel {z : F32} (h : z = F32.finite 0 ∨ z = F32.nan) :
    F32.half (F32.add z (F32.finite 0)) = F32.finite 0
      ∨ F32.half (F32.add z (F32.finite 0)) = F32.nan := by
  rcases h with rfl | rfl
  · left
    rw [F32.add_zero_value (by exact F32.ofRat_zero), F32.half_zero]
  · exact Or.inr rfl

theorem half_of_cancel {z : F32} (h : z = F32.finite 0 ∨ z = F32.nan) :
    F32.half z = F32.finite 0 ∨ F32.half z = F32.nan := by
  rcases h with rfl | rfl
  · exact Or.inl F32.half_zero
  · exact Or.inr rfl

theorem computedArea_first_two_equal (P Q : UVPoint) :
    computedArea P P Q = F32.finite 0 ∨ computedArea P P Q = F32.nan := by
  rw [computedArea_eq, F32.sub_finite_self, F32.mul_finite_zero, F32.sub_swap Q.v P.v,
    F32.mul_neg_value]
  exact half_add_zero_of_cancel (F32.add_neg_self _)

theorem computedArea_last_two_equal (P Q : UVPoint) :
    computedArea P Q Q = F32.finite 0 ∨ computedArea P Q Q = F32.nan := by
  rw [computedArea_eq, F32.sub_finite_self, F32.mul_finite_zero, F32.sub_swap P.v Q.v,
    F32.mul_neg_value, F32.zero_add_value (F32.mul_isValue _ _)]
  exact half_of_cancel (F32.add_neg_self _)

theorem computedArea_outer_two_equal (P Q : UVPoint) :
    computedArea P Q P = F32.finite 0 ∨ computedArea P Q P = F32.nan := by
  rw [computedArea_eq, F32.sub_finite_self, F32.mul_finite_zero, F32.sub_swap P.v Q.v,
    F32.mul_neg_value, F32.add_zero_value (F32.mul_isValue _ _)]
  exact half_of_cancel (F32.add_neg_self _)

theorem F32.add_neg_neg (x y : F32) :
    F32.add (F32.neg x) (F32.neg y) = F32.neg (F32.add x y) := by
  cases x with
  | finite a =>
    cases y with
    | finite b =>
      have h1 : F32.add (F32.neg (F32.finite a)) (F32.neg (F32.finite b))
          = F32.ofRat (-a + -b) := rfl
      have h2 : F32.add (F32.finite a) (F32.finite b) = F32.ofRat (a + b) := rfl
      rw [h1, h2, ← F32.ofRat_neg]
      congr 1
      ring
    | inf t => rfl
    | nan => rfl
  | inf s =>
    cases y with
    | finite b => rfl
    | inf t => cases s <;> cases t <;> rfl
    | nan => rfl
  | nan => cases y <;> rfl

theorem F32.half_neg (x : F32) : F32.half (F32.neg x) = F32.neg (F32.half x) := by
  cases x with
  | finite a =>
    have h1 : F32.half (F32.neg (F32.finite a)) = F32.ofRat (-a / 2) := rfl
    have h2 : F32.half (F32.finite a) = F32.ofRat (a / 2) := rfl
    rw [h1, h2, ← F32.ofRat_neg]
    congr 1
    ring
  | inf s => rfl
  | nan => rfl

theorem computedArea_reverse (A B C : UVPoint) :
    computedArea C B A
      = F32.neg (F32.half (F32.add
          (F32.add
            (F32.mul (F32.finite C.u) (F32.sub (F32.finite A.v) (F32.finite B.v)))
            (F32.mul (F32.finite B.u) (F32.sub (F32.finite C.v) (F32.finite A.v))))
          (F32.mul (F32.finite A.u) (F32.sub (F32.finite B.v) (F32.finite C.v))))) := by
  rw [computedArea_eq, F32.sub_swap B.v A.v, F32.sub_swap A.v C.v, F32.sub_swap C.v B.v,
    F32.mul_neg_value, F32.mul_neg_value, F32.mul_neg_value, F32.add_neg_neg,
    F32.add_neg_neg, F32.half_neg]

theorem computedArea_rotate (A B C : UVPoint) :
    computedArea B C A
      = F32.half (F32.add
          (F32.add
            (F32.mul (F32.finite B.u) (F32.sub (F32.finite C.v) (F32.finite A.v)))
            (F32.mul (F32.finite C.u) (F32.sub (F32.finite A.v) (F32.finite B.v))))
          (F32.mul (F32.finite A.u) (F32.sub (F32.finite B.v) (F32.finite C.v)))) := rfl

/-! ## The claims -/

/-- C1 fails as stated: on a mesh of one triangle whose lookups succeed and
whose coordinates are binary32 values, the triangle has signed area `-11/2^32`,
so the sequence of the claim is the face identifier once, but the area computed
by line 153 is `0` and `findOverlaps` returns the empty list; and a triangle
of signed area zero is computed as `-1/2^31` and reported. -/
theorem c1_counterexample :
    OverlapLookupsOk thinTriangleRotated
      ∧ (∀ uv ∈ thinTriangleRotated.uvTable,
          F32.Representable uv.1 ∧ F32.Representable uv.2)
      ∧ triangleCorners thinTriangleRotated triangleFace (0, 1, 2)
          = some (⟨43971 / 65536, 46015 / 65536⟩, ⟨55365 / 65536, 51756 / 65536⟩,
              ⟨41123 / 65536, 44580 / 65536⟩)
      ∧ signedArea ⟨43971 / 65536, 46015 / 65536⟩ ⟨55365 / 65536, 51756 / 65536⟩
          ⟨41123 / 65536, 44580 / 65536⟩ = -11 / 2 ^ 32
      ∧ overlapEntriesExact thinTriangleRotated = ["mesh.f[0]"]
      ∧ UvChecker.findOverlaps indeterminateZero ⟨thinTriangleRotated, false, 0⟩
          = ⟨MStatus.kSuccess, some []⟩
      ∧ (UvChecker.findOverlaps indeterminateZero ⟨thinTriangleRotated, false, 0⟩).result
          ≠ some (overlapEntriesExact thinTriangleRotated)
      ∧ OverlapLookupsOk collinearRounded
      ∧ (∀ uv ∈ collinearRounded.uvTable,
          F32.Representable uv.1 ∧ F32.Representable uv.2)
      ∧ overlapEntriesExact collinearRounded = []
      ∧ UvChecker.findOverlaps indeterminateZero ⟨collinearRounded, false, 0⟩
          = ⟨MStatus.kSuccess, some ["mesh.f[0]"]⟩ := by
  refine ⟨by decide!, by decide!, by decide!, by decide!, by decide!, by decide!,
    by decide!, by decide!, by decide!, by decide!, by decide!⟩

/-- C1, as the code has it: when every lookup of the pass succeeds,
`findOverlaps` succeeds and its result is exactly the list obtained by visiting
the faces in mesh order and the triangles of each face in triangulation order,
emitting the identifier of the face once per triangle for which the area of
line 153, computed in binary32, is strictly negative; the block of a face is
its identifier repeated as often as it has such triangles.  Read over exact
arithmetic the same loops emit once per triangle of strictly negative signed
area. -/
theorem c1_findOverlaps_sequence (ind : Indeterminate) (self : UvChecker)
    (hok : OverlapLookupsOk self.mDagPath) :
    self.findOverlaps ind
        = ⟨MStatus.kSuccess, some (self.mDagPath.polygons.flatMap (fun poly =>
            (poly.triangles.getD []).flatMap (fun t =>
              if isInverted self.mDagPath poly t
              then [componentName self.mDagPath (poly.index : Int)] else [])))⟩
      ∧ (self.findOverlaps ind).result
        = some (self.mDagPath.polygons.flatMap (fun poly =>
            List.replicate (invertedCount self.mDagPath poly)
              (componentName self.mDagPath (poly.index : Int))))
      ∧ (∀ (poly : Polygon) (t : Int × Int × Int) (A B C : UVPoint),
          triangleCorners self.mDagPath poly t = some (A, B, C) →
          isInverted self.mDagPath poly t = F32.isNegative (computedArea A B C)
            ∧ isInvertedExact self.mDagPath poly t = decide (signedArea A B C < 0))
      ∧ findOverlapsWith exactArith ind self
        = ⟨MStatus.kSuccess, some (self.mDagPath.polygons.flatMap (fun poly =>
            (poly.triangles.getD []).flatMap (fun t =>
              if isInvertedExact self.mDagPath poly t
              then [componentName self.mDagPath (poly.index : Int)] else [])))⟩ := by
  have h := findOverlaps_eq_overlapEntries ind self hok
  have hexact := findOverlapsExact_eq_entries ind self hok
  unfold overlapEntriesExact at hexact
  refine ⟨h, ?_, ?_, hexact⟩
  · rw [h]
    have hrep : faceEntries self.mDagPath = fun poly =>
        List.replicate (invertedCount self.mDagPath poly)
          (componentName self.mDagPath (poly.index : Int)) :=
      funext (faceEntries_eq_replicate self.mDagPath)
    simp only [overlapEntries, hrep]
  · intro poly t A B C hc
    exact ⟨isInverted_of_corners hc, isInvertedExact_of_corners hc⟩

/-- Witness of C1 on the clockwise quad and on the thin triangle whose
computed area is zero. -/
theorem c1_findOverlaps_sequence_witness :
    OverlapLookupsOk quadCW
      ∧ (UvChecker.findOverlaps indeterminateZero ⟨quadCW, false, 0⟩).result
        = some (quadCW.polygons.flatMap (fun poly =>
            List.replicate (invertedCount quadCW poly)
              (componentName quadCW (poly.index : Int))))
      ∧ OverlapLookupsOk thinTriangleRotated
      ∧ (UvChecker.findOverlaps indeterminateStale ⟨thinTriangleRotated, false, 0⟩).result
        = some (thinTriangleRotated.polygons.flatMap (fun poly =>
            List.replicate (invertedCount thinTriangleRotated poly)
              (componentName thinTriangleRotated (poly.index : Int)))) :=
  ⟨by decide!,
    (c1_findOverlaps_sequence indeterminateZero ⟨quadCW, false, 0⟩ (by decide!)).2.1,
    by decide!,
    (c1_findOverlaps_sequence indeterminateStale ⟨thinTriangleRotated, false, 0⟩
      (by decide!)).2.1⟩

/-- C2: if the edge of a face from loop position `i` to the next position
(wrapping) has its endpoints in different UDIM tiles, both endpoint UV ids are
in the index array of `findUdimIntersections`, each exactly once. -/
theorem c2_crossing_endpoints_once (ind : Indeterminate) (self : UvChecker)
    (poly : Polygon) (hp : poly ∈ self.mDagPath.polygons) (i : Nat) (a b : Int)
    (h : EdgeCrosses self.mDagPath poly i a b) :
    (self.findUdimIntersections ind).result
        = some ((udimIndexArray ind self.mDagPath).map (componentName self.mDagPath))
      ∧ (udimIndexArray ind self.mDagPath).count a = 1
      ∧ (udimIndexArray ind self.mDagPath).count b = 1 := by
  refine ⟨findUdimIntersections_result ind self, ?_, ?_⟩
  all_goals rw [udimIndexArray_eq_indexSet]
  · exact List.count_eq_one_of_mem (udimIndexSet_sorted ind self.mDagPath).nodup
      (udimIndexSet_mem_of_crossing ind self.mDagPath poly hp i a b h).1
  · exact List.count_eq_one_of_mem (udimIndexSet_sorted ind self.mDagPath).nodup
      (udimIndexSet_mem_of_crossing ind self.mDagPath poly hp i a b h).2

/-- Witness of C2: the wrap-around edge of the crossing triangle, from
position 2 (UV id 2) back to position 0 (UV id 0). -/
theorem c2_crossing_endpoints_once_witness :
    (udimIndexArray indeterminateZero crossingTriangle).count 2 = 1
      ∧ (udimIndexArray indeterminateZero crossingTriangle).count 0 = 1 :=
  (c2_crossing_endpoints_once indeterminateZero ⟨crossingTriangle, false, 1⟩
    triangleFace (List.mem_singleton.mpr rfl) 2 2 0
    ⟨by decide, by decide, by decide,
      (3 / 10, 19 / 10), (1 / 5, 1 / 5), by decide!, by decide!, by decide!⟩).2

/-- C3: an edge whose endpoints lie in one tile leaves the index set as it
was, a coordinate on a grid line included (`u = 1` and `u = 3/2` share a
tile); when every lookup succeeds, every reported UV id is an endpoint of some
face edge crossing a tile border, and a mesh without such an edge yields the
empty result. -/
theorem c3_same_tile_not_reported (ind : Indeterminate) (self : UvChecker)
    (hok : UdimLookupsOk self.mDagPath) :
    (∀ (poly : Polygon) (st : UdimLocals × List Int) (i : Nat) (a b : Int) (pa pb : ℚ × ℚ),
        i < poly.vertices.length →
        poly.getUVIndex (i : Int) = some a →
        poly.getUVIndex (((i + 1) % poly.vertices.length : Nat) : Int) = some b →
        self.mDagPath.getUV a = some pa → self.mDagPath.getUV b = some pb →
        Int.floor pa.1 = Int.floor pb.1 → Int.floor pa.2 = Int.floor pb.2 →
        (udimEdge self.mDagPath poly poly.polygonVertexCount st i).2 = st.2)
      ∧ (∀ v : ℚ, udimTile (1, v) = udimTile (3 / 2, v))
      ∧ (∀ x ∈ udimIndexArray ind self.mDagPath, CrossingEndpoint self.mDagPath x)
      ∧ ((∀ poly ∈ self.mDagPath.polygons, ∀ i a b,
            ¬ EdgeCrosses self.mDagPath poly i a b) →
          self.findUdimIntersections ind = ⟨MStatus.kSuccess, some []⟩) := by
  refine ⟨?_, ?_, ?_, ?_⟩
  · intro poly st i a b pa pb hi ha hb hpa hpb hu hv
    rw [udimEdge_resolved self.mDagPath poly st i hi a b pa pb
      (Mesh.getUVIndex_eq_some.mpr ⟨ha, hpa⟩) (Mesh.getUVIndex_eq_some.mpr ⟨hb, hpb⟩)]
    rw [if_pos]
    unfold udimTile
    rw [hu, hv]
  · intro v
    unfold udimTile
    have h1 : Int.floor (1 : ℚ) = 1 := Int.floor_one
    have h2 : Int.floor (3 / 2 : ℚ) = 1 := by
      rw [Int.floor_eq_iff]
      norm_num
    simp only [h1, h2]
  · intro x hx
    rw [udimIndexArray_eq_indexSet] at hx
    exact udimIndexSet_origin ind self.mDagPath hok x hx
  · intro hnone
    have hempty : udimIndexArray ind self.mDagPath = [] := by
      apply List.eq_nil_iff_forall_not_mem.mpr
      intro x hx
      rw [udimIndexArray_eq_indexSet] at hx
      obtain ⟨poly, hp, i, a, b, hedge, _⟩ := udimIndexSet_origin ind self.mDagPath hok x hx
      exact hnone poly hp i a b hedge
    unfold UvChecker.findUdimIntersections
    simp only [hempty, formatIndices, List.foldl_nil]

/-- Witness of C3: the triangle inside tile (1, 0) with a corner on `u = 1`
is reported empty, so no UV id is in its index array. -/
theorem c3_same_tile_not_reported_witness :
    UdimLookupsOk borderTriangle
      ∧ ∀ x ∈ udimIndexArray indeterminateZero borderTriangle,
          CrossingEndpoint borderTriangle x :=
  ⟨by decide!,
    (c3_same_tile_not_reported indeterminateZero ⟨borderTriangle, false, 1⟩
      (by decide!)).2.2.1⟩

/-- C4: the UV ids reported by `findUdimIntersections` are strictly ascending. -/
theorem c4_udim_result_ascending (ind : Indeterminate) (self : UvChecker) :
    (self.findUdimIntersections ind).result
        = some ((udimIndexArray ind self.mDagPath).map (componentName self.mDagPath))
      ∧ (udimIndexArray ind self.mDagPath).Sorted (· < ·) := by
  refine ⟨findUdimIntersections_result ind self, ?_⟩
  rw [udimIndexArray_eq_indexSet]
  exact udimIndexSet_sorted ind self.mDagPath

/-- C5 fails as stated: a triangle whose lookups succeed, with binary32
coordinates and signed area `9/2^32`, has the area of line 153 computed as
`-1/2^27` and is reported; with its corners in reversed order the signed area
is `-9/2^32`, the computed area is `19/2^32`, and it is not reported. -/
theorem c5_counterexample :
    OverlapLookupsOk flippedTriangle
      ∧ (∀ uv ∈ flippedTriangle.uvTable, F32.Representable uv.1 ∧ F32.Representable uv.2)
      ∧ triangleCorners flippedTriangle triangleFace (0, 1, 2)
          = some (⟨55726 / 65536, 48007 / 65536⟩, ⟨54556 / 65536, 34426 / 65536⟩,
              ⟨54584 / 65536, 34751 / 65536⟩)
      ∧ 0 < signedArea ⟨55726 / 65536, 48007 / 65536⟩ ⟨54556 / 65536, 34426 / 65536⟩
          ⟨54584 / 65536, 34751 / 65536⟩
      ∧ computedArea ⟨55726 / 65536, 48007 / 65536⟩ ⟨54556 / 65536, 34426 / 65536⟩
          ⟨54584 / 65536, 34751 / 65536⟩ = F32.finite (-1 / 2 ^ 27)
      ∧ UvChecker.findOverlaps indeterminateZero ⟨flippedTriangle, false, 0⟩
          = ⟨MStatus.kSuccess, some ["mesh.f[0]"]⟩
      ∧ OverlapLookupsOk flippedTriangleReversed
      ∧ triangleCorners flippedTriangleReversed triangleFace (0, 1, 2)
          = some (⟨54584 / 65536, 34751 / 65536⟩, ⟨54556 / 65536, 34426 / 65536⟩,
              ⟨55726 / 65536, 48007 / 65536⟩)
      ∧ signedArea ⟨54584 / 65536, 34751 / 65536⟩ ⟨54556 / 65536, 34426 / 65536⟩
          ⟨55726 / 65536, 48007 / 65536⟩ < 0
      ∧ computedArea ⟨54584 / 65536, 34751 / 65536⟩ ⟨54556 / 65536, 34426 / 65536⟩
          ⟨55726 / 65536, 48007 / 65536⟩ = F32.finite (19 / 2 ^ 32)
      ∧ UvChecker.findOverlaps indeterminateZero ⟨flippedTriangleReversed, false, 0⟩
          = ⟨MStatus.kSuccess, some []⟩ := by
  refine ⟨by decide!, by decide!, by decide!, by decide!, by decide!, by decide!,
    by decide!, by decide!, by decide!, by decide!, by decide!⟩

/-- C5, as the code has it.  In the triangle loop of a face a triangle is
reported exactly when the area of line 153, computed in binary32 on its corners
in the listed order, is negative: a positive computed area is never reported.
The area computed for the reversed corners (C, B, A) is the negation of the
three products of (A, B, C) summed in the opposite order.  Over exact
arithmetic the signed area of the reversed corners is the negation, so a
triangle of positive signed area is not reported and its reversal is. -/
theorem c5_winding_invariant (ind : Indeterminate) (mesh : Mesh) (poly : Polygon)
    (st : FaceState) (i : Nat) (t : Int × Int × Int) (A B C : UVPoint)
    (hm : ∀ k, (StdMap.index st.vtxMap k).1 = localIndex poly k)
    (hc : triangleCorners mesh poly t = some (A, B, C)) :
    (poly.getTriangle (i : Int) = some [t.1, t.2.1, t.2.2] →
        (overlapTriangle ind mesh poly st i).resultArray
            = st.resultArray ++ (if F32.isNegative (computedArea A B C) = true
                then [componentName mesh (poly.index : Int)] else [])
          ∧ (F32.isPositive (computedArea A B C) = true →
              (overlapTriangle ind mesh poly st i).resultArray = st.resultArray))
      ∧ (poly.getTriangle (i : Int) = some [t.2.2, t.2.1, t.1] →
        (overlapTriangle ind mesh poly st i).resultArray
            = st.resultArray ++ (if F32.isNegative (computedArea C B A) = true
                then [componentName mesh (poly.index : Int)] else []))
      ∧ computedArea C B A
          = F32.neg (F32.half (F32.add
              (F32.add
                (F32.mul (F32.finite C.u) (F32.sub (F32.finite A.v) (F32.finite B.v)))
                (F32.mul (F32.finite B.u) (F32.sub (F32.finite C.v) (F32.finite A.v))))
              (F32.mul (F32.finite A.u) (F32.sub (F32.finite B.v) (F32.finite C.v)))))
      ∧ signedArea C B A = - signedArea A B C
      ∧ (0 < signedArea A B C →
          signedArea C B A < 0
            ∧ (poly.getTriangle (i : Int) = some [t.1, t.2.1, t.2.2] →
              (overlapTriangleWith exactArith ind mesh poly st i).resultArray
                = st.resultArray)
            ∧ (poly.getTriangle (i : Int) = some [t.2.2, t.2.1, t.1] →
              (overlapTriangleWith exactArith ind mesh poly st i).resultArray
                = st.resultArray ++ [componentName mesh (poly.index : Int)])
            ∧ isInvertedExact mesh poly t = false
            ∧ isInvertedExact mesh poly (t.2.2, t.2.1, t.1) = true) := by
  obtain ⟨hA, hB, hC⟩ := triangleCorners_eq_some hc
  have hc2 : triangleCorners mesh poly (t.2.2, t.2.1, t.1) = some (C, B, A) :=
    triangleCorners_of_corners hC hB hA
  refine ⟨?_, ?_, computedArea_reverse A B C, signedArea_reverse A B C, ?_⟩
  · intro ht
    have hstep := overlapTriangle_resolved ind mesh poly st i t A B C hm ht hc
    refine ⟨hstep, ?_⟩
    intro hpos
    have hneg : ¬ (F32.isNegative (computedArea A B C) = true) := by
      rw [F32.isNegative_isPositive _ hpos]
      simp
    rw [if_neg hneg, List.append_nil] at hstep
    exact hstep
  · intro ht
    exact overlapTriangle_resolved ind mesh poly st i (t.2.2, t.2.1, t.1) C B A hm ht hc2
  · intro hpos
    have hrev : signedArea C B A < 0 := by
      rw [signedArea_reverse]
      linarith
    have hnot : ¬ signedArea A B C < 0 := not_lt.mpr (le_of_lt hpos)
    refine ⟨hrev, ?_, ?_, ?_, ?_⟩
    · intro ht
      rw [overlapTriangleExact_resolved ind mesh poly st i t A B C hm ht hc, if_neg hnot,
        List.append_nil]
    · intro ht
      rw [overlapTriangleExact_resolved ind mesh poly st i (t.2.2, t.2.1, t.1) C B A hm ht
        hc2, if_pos hrev]
    · rw [isInvertedExact_of_corners hc]
      exact decide_eq_false hnot
    · rw [isInvertedExact_of_corners hc2]
      exact decide_eq_true hrev

/-- Witness of C5: the first triangle of the counter-clockwise quad runs
through the triangle loop unreported, in binary32 and over exact arithmetic;
listed in reversed order it is reported. -/
theorem c5_winding_invariant_witness :
    (overlapTriangle indeterminateZero quadCCW quadFace
        ⟨[], fillVtxMap quadFace.getVertices 0 StdMap.empty, [], 0, 0,
          indeterminateZero.uvPointArray⟩ 0).resultArray = []
      ∧ (overlapTriangleWith exactArith indeterminateZero quadCCW quadFace
        ⟨[], fillVtxMap quadFace.getVertices 0 StdMap.empty, [], 0, 0,
          indeterminateZero.uvPointArray⟩ 0).resultArray = []
      ∧ (overlapTriangleWith exactArith indeterminateZero quadCCW quadFaceReversed
        ⟨[], fillVtxMap quadFaceReversed.getVertices 0 StdMap.empty, [], 0, 0,
          indeterminateZero.uvPointArray⟩ 0).resultArray = ["mesh.f[0]"] :=
  ⟨((c5_winding_invariant indeterminateZero quadCCW quadFace
      ⟨[], fillVtxMap quadFace.getVertices 0 StdMap.empty, [], 0, 0,
        indeterminateZero.uvPointArray⟩ 0 (0, 1, 2)
      ⟨0, 0⟩ ⟨1, 0⟩ ⟨1, 1⟩ (fun _ => rfl) (by decide!)).1 (by decide!)).2 (by decide!),
    ((c5_winding_invariant indeterminateZero quadCCW quadFace
      ⟨[], fillVtxMap quadFace.getVertices 0 StdMap.empty, [], 0, 0,
        indeterminateZero.uvPointArray⟩ 0 (0, 1, 2)
      ⟨0, 0⟩ ⟨1, 0⟩ ⟨1, 1⟩ (fun _ => rfl) (by decide!)).2.2.2.2 (by decide!)).2.1
      (by decide!),
    ((c5_winding_invariant indeterminateZero quadCCW quadFaceReversed
      ⟨[], fillVtxMap quadFaceReversed.getVertices 0 StdMap.empty, [], 0, 0,
        indeterminateZero.uvPointArray⟩ 0 (0, 1, 2)
      ⟨0, 0⟩ ⟨1, 0⟩ ⟨1, 1⟩ (fun _ => rfl) (by decide!)).2.2.2.2 (by decide!)).2.2.1
      (by decide!)⟩

/-- C6 fails as stated: a triangle whose lookups succeed, with binary32
coordinates and collinear corners, has signed area exactly zero, but the area
of line 153 is computed as `-1/2^31`, the test `area < 0` holds and the face
is reported. -/
theorem c6_counterexample :
    OverlapLookupsOk collinearRounded
      ∧ (∀ uv ∈ collinearRounded.uvTable, F32.Representable uv.1 ∧ F32.Representable uv.2)
      ∧ triangleCorners collinearRounded triangleFace (0, 1, 2)
          = some (⟨50588 / 65536, 40786 / 65536⟩, ⟨51084 / 65536, 41474 / 65536⟩,
              ⟨51983 / 65536, 42721 / 65536⟩)
      ∧ signedArea ⟨50588 / 65536, 40786 / 65536⟩ ⟨51084 / 65536, 41474 / 65536⟩
          ⟨51983 / 65536, 42721 / 65536⟩ = 0
      ∧ triangleArea ⟨⟨50588 / 65536, 40786 / 65536⟩, ⟨51084 / 65536, 41474 / 65536⟩,
          ⟨51983 / 65536, 42721 / 65536⟩⟩ = F32.finite (-1 / 2 ^ 31)
      ∧ F32.isNegative (triangleArea ⟨⟨50588 / 65536, 40786 / 65536⟩,
          ⟨51084 / 65536, 41474 / 65536⟩, ⟨51983 / 65536, 42721 / 65536⟩⟩) = true
      ∧ (overlapTriangle indeterminateZero collinearRounded triangleFace
          ⟨[], fillVtxMap triangleFace.getVertices 0 StdMap.empty, [], 0, 0,
            indeterminateZero.uvPointArray⟩ 0).resultArray = ["mesh.f[0]"]
      ∧ UvChecker.findOverlaps indeterminateZero ⟨collinearRounded, false, 0⟩
          = ⟨MStatus.kSuccess, some ["mesh.f[0]"]⟩ := by
  refine ⟨by decide!, by decide!, by decide!, by decide!, by decide!, by decide!,
    by decide!, by decide!⟩

/-- C6, as the code has it.  A triangle for which the area of line 153,
computed in binary32, is not negative is not reported; this is the case
whenever two or three of its UV corners coincide, for which the computed area
is zero or NaN.  Over exact arithmetic a triangle of signed area zero is not
reported, and coincident or collinear corners have signed area zero. -/
theorem c6_zero_area_not_flagged (ind : Indeterminate) (mesh : Mesh) (poly : Polygon)
    (st : FaceState) (i : Nat) (t : Int × Int × Int) (A B C : UVPoint)
    (hm : ∀ k, (StdMap.index st.vtxMap k).1 = localIndex poly k)
    (ht : poly.getTriangle (i : Int) = some [t.1, t.2.1, t.2.2])
    (hc : triangleCorners mesh poly t = some (A, B, C)) :
    (F32.isNegative (triangleArea ⟨A, B, C⟩) = false →
        (overlapTriangle ind mesh poly st i).resultArray = st.resultArray)
      ∧ (A = B ∨ B = C ∨ A = C →
        F32.isNegative (triangleArea ⟨A, B, C⟩) = false
          ∧ (overlapTriangle ind mesh poly st i).resultArray = st.resultArray)
      ∧ (∀ P Q : UVPoint,
          (computedArea P P Q = F32.finite 0 ∨ computedArea P P Q = F32.nan)
            ∧ (computedArea P Q Q = F32.finite 0 ∨ computedArea P Q Q = F32.nan)
            ∧ (computedArea P Q P = F32.finite 0 ∨ computedArea P Q P = F32.nan))
      ∧ (signedArea A B C = 0 →
        exactArith.isNegative (triangleAreaWith exactArith ⟨A, B, C⟩) = false
          ∧ (overlapTriangleWith exactArith ind mesh poly st i).resultArray
            = st.resultArray)
      ∧ (∀ P Q : UVPoint, signedArea P P Q = 0 ∧ signedArea P Q Q = 0
          ∧ signedArea P Q P = 0)
      ∧ (∀ (P Q : UVPoint) (r : ℚ),
          signedArea P Q ⟨P.u + r * (Q.u - P.u), P.v + r * (Q.v - P.v)⟩ = 0) := by
  have hstep := overlapTriangle_resolved ind mesh poly st i t A B C hm ht hc
  have hkeep : F32.isNegative (triangleArea ⟨A, B, C⟩) = false →
      (overlapTriangle ind mesh poly st i).resultArray = st.resultArray := by
    intro hfalse
    rw [triangleArea_mk] at hfalse
    have hneg : ¬ (F32.isNegative (computedArea A B C) = true) := by
      rw [hfalse]
      simp
    have h := hstep
    rw [if_neg hneg, List.append_nil] at h
    exact h
  have hcoincide : A = B ∨ B = C ∨ A = C →
      F32.isNegative (triangleArea ⟨A, B, C⟩) = false := by
    intro h
    rw [triangleArea_mk]
    rcases h with h | h | h
    · subst h
      exact F32.isNegative_of_zero_or_nan (computedArea_first_two_equal A C)
    · subst h
      exact F32.isNegative_of_zero_or_nan (computedArea_last_two_equal A B)
    · subst h
      exact F32.isNegative_of_zero_or_nan (computedArea_outer_two_equal A B)
  refine ⟨hkeep, fun h => ⟨hcoincide h, hkeep (hcoincide h)⟩, ?_, ?_, ?_, ?_⟩
  · intro P Q
    exact ⟨computedArea_first_two_equal P Q, computedArea_last_two_equal P Q,
      computedArea_outer_two_equal P Q⟩
  · intro hzero
    have hnot : ¬ signedArea A B C < 0 := by
      rw [hzero]
      exact lt_irrefl 0
    refine ⟨?_, ?_⟩
    · rw [triangleAreaWith_mk, signedAreaWith_exact, isNegative_exact]
      exact decide_eq_false hnot
    · rw [overlapTriangleExact_resolved ind mesh poly st i t A B C hm ht hc, if_neg hnot,
        List.append_nil]
  · intro P Q
    unfold signedArea
    refine ⟨by ring, by ring, by ring⟩
  · intro P Q r
    unfold signedArea
    ring

/-- Witness of C6: a triangle whose first two UV corners coincide passes the
triangle loop unreported, and a triangle with collinear corners does so over
exact arithmetic. -/
theorem c6_zero_area_not_flagged_witness :
    (overlapTriangle indeterminateZero coincidentTriangle triangleFace
        ⟨[], fillVtxMap triangleFace.getVertices 0 StdMap.empty, [], 0, 0,
          indeterminateZero.uvPointArray⟩ 0).resultArray = []
      ∧ signedArea ⟨0, 0⟩ ⟨1, 1⟩ ⟨2, 2⟩ = 0
      ∧ (overlapTriangleWith exactArith indeterminateZero collinearTriangle triangleFace
          ⟨[], fillVtxMap triangleFace.getVertices 0 StdMap.empty, [], 0, 0,
            indeterminateZero.uvPointArray⟩ 0).resultArray = [] :=
  ⟨((c6_zero_area_not_flagged indeterminateZero coincidentTriangle triangleFace
      ⟨[], fillVtxMap triangleFace.getVertices 0 StdMap.empty, [], 0, 0,
        indeterminateZero.uvPointArray⟩ 0 (0, 1, 2)
      ⟨1 / 3, 1 / 5⟩ ⟨1 / 3, 1 / 5⟩ ⟨7 / 10, 2 / 3⟩ (fun _ => rfl) (by decide!)
      (by decide!)).2.1 (Or.inl rfl)).2,
    by decide!,
    ((c6_zero_area_not_flagged indeterminateZero collinearTriangle triangleFace
      ⟨[], fillVtxMap triangleFace.getVertices 0 StdMap.empty, [], 0, 0,
        indeterminateZero.uvPointArray⟩ 0 (0, 1, 2)
      ⟨0, 0⟩ ⟨1, 1⟩ ⟨2, 2⟩ (fun _ => rfl) (by decide!) (by decide!)).2.2.2.1
      (by decide!)).2⟩

/-- C7, as the code has it: the detectors never look at the status of an
accessor call, so for every mesh, with failing lookups or without, each pass
runs to its end, sets a result list and returns success. -/
theorem c7_detectors_always_succeed (ind : Indeterminate) (self : UvChecker) :
    (self.findOverlaps ind).status = MStatus.kSuccess
      ∧ (self.findOverlaps ind).result.isSome = true
      ∧ (self.findUdimIntersections ind).status = MStatus.kSuccess
      ∧ (self.findUdimIntersections ind).result.isSome = true :=
  ⟨rfl, rfl, rfl, rfl⟩

/-- C7 fails as stated: on a mesh with a face without triangulation, an
unmapped loop position and a UV id without coordinate, both passes return
success and set a result; the overlap pass reports the inverted face 0, and,
when the default constructor of `UVPoint` leaves the members as they are, also
face 1, which runs the triangle loop on the corners left by face 0. -/
theorem c7_counterexample :
    (faultyMesh.polygons.get? 1).bind (fun poly => poly.numTriangles) = none
      ∧ (faultyMesh.polygons.get? 2).bind (fun poly => poly.getUVIndex 1) = none
      ∧ (faultyMesh.polygons.get? 3).bind (fun poly => poly.getUVIndex 1) = some 9
      ∧ faultyMesh.getUV 9 = none
      ∧ ¬ OverlapLookupsOk faultyMesh
      ∧ ¬ UdimLookupsOk faultyMesh
      ∧ (UvChecker.findOverlaps indeterminateZero ⟨faultyMesh, false, 0⟩).status
          = MStatus.kSuccess
      ∧ (UvChecker.findOverlaps indeterminateZero ⟨faultyMesh, false, 0⟩).result
          = some ["mesh.f[0]"]
      ∧ (UvChecker.findUdimIntersections indeterminateZero ⟨faultyMesh, false, 1⟩).status
          = MStatus.kSuccess
      ∧ (UvChecker.findUdimIntersections indeterminateZero
          ⟨faultyMesh, false, 1⟩).result.isSome = true
      ∧ (UvChecker.findOverlaps indeterminateStale ⟨faultyMesh, false, 0⟩).status
          = MStatus.kSuccess
      ∧ (UvChecker.findOverlaps indeterminateStale ⟨faultyMesh, false, 0⟩).result
          = some ["mesh.f[0]", "mesh.f[1]"] := by
  refine ⟨by decide!, by decide!, by decide!, by decide!, by decide!, by decide!,
    rfl, by decide!, rfl, rfl, rfl, by decide!⟩

/-- C8, evaluated on the code: for a check number that is neither `OVERLAPS`
nor `UDIM`, `redoIt` runs no detector and sets no result, shows the error
line, and returns success; so does `doIt` on a mesh, with that number given
to `-check` and, when 99 is not a check id, with the flag absent. -/
theorem c8_invalid_check_number_succeeds (ids : CheckIds) (ind : Indeterminate)
    (mesh : Mesh) (verbose : Bool) (checkNumber : Nat)
    (h1 : checkNumber ≠ ids.OVERLAPS) (h2 : checkNumber ≠ ids.UDIM) :
    UvChecker.redoIt ids ind ⟨mesh, verbose, checkNumber⟩
        = ⟨MStatus.kSuccess, none, [Message.displayError "Invalid check number"]⟩
      ∧ (∀ verboseFlag : Option Bool,
          UvChecker.doIt ids ind ⟨some (DagTarget.meshShape mesh), verboseFlag, some checkNumber⟩
            = ⟨MStatus.kSuccess, none, [Message.displayError "Invalid check number"]⟩)
      ∧ (99 ≠ ids.OVERLAPS → 99 ≠ ids.UDIM → ∀ verboseFlag : Option Bool,
          UvChecker.doIt ids ind ⟨some (DagTarget.meshShape mesh), verboseFlag, none⟩
            = ⟨MStatus.kSuccess, none, [Message.displayError "Invalid check number"]⟩) := by
  refine ⟨?_, ?_, ?_⟩
  · unfold UvChecker.redoIt
    rw [if_neg h1, if_neg h2]
  · intro verboseFlag
    unfold UvChecker.doIt
    simp only
    unfold UvChecker.redoIt
    rw [if_neg h1, if_neg h2]
  · intro h3 h4 verboseFlag
    unfold UvChecker.doIt
    simp only
    unfold UvChecker.redoIt
    rw [if_neg h3, if_neg h4]

/-- Witness of C8: no `-check` flag, check ids 0 and 1. -/
theorem c8_invalid_check_number_succeeds_witness :
    UvChecker.doIt ⟨0, 1⟩ indeterminateZero ⟨some (DagTarget.meshShape quadCW), none, none⟩
      = ⟨MStatus.kSuccess, none, [Message.displayError "Invalid check number"]⟩ :=
  (c8_invalid_check_number_succeeds ⟨0, 1⟩ indeterminateZero quadCW false 99
    (by decide) (by decide)).2.2 (by decide) (by decide) none

/-- C9: formatting keeps length and order.  The string array of either pass
has the length of the sequence of detected indices (face ids in overlap
mode, UV ids in UDIM mode) and its entry `i` is the mesh path followed by
`.f[`, the decimal index `i` of the sequence, and `]`. -/
theorem c9_formatting_keeps_order (ind : Indeterminate) (self : UvChecker)
    (hok : OverlapLookupsOk self.mDagPath) :
    (∃ out, (self.findOverlaps ind).result = some out
        ∧ Renders self.mDagPath.fullPathName (overlapFaceIndices self.mDagPath) out)
      ∧ (∃ out, (self.findUdimIntersections ind).result = some out
        ∧ Renders self.mDagPath.fullPathName (udimIndexArray ind self.mDagPath) out)
      ∧ ∀ ns : List Int,
          Renders self.mDagPath.fullPathName ns (formatIndices self.mDagPath ns) := by
  refine ⟨⟨_, ?_, renders_map self.mDagPath _⟩, ⟨_, ?_, renders_map self.mDagPath _⟩, ?_⟩
  · rw [findOverlaps_eq_overlapEntries ind self hok, overlapEntries_eq_map]
  · exact findUdimIntersections_result ind self
  · intro ns
    rw [formatIndices_eq_map]
    exact renders_map self.mDagPath ns

/-- Witness of C9 on the clockwise quad. -/
theorem c9_formatting_keeps_order_witness :
    ∃ out, (UvChecker.findUdimIntersections indeterminateZero ⟨quadCW, false, 1⟩).result
        = some out
      ∧ Renders quadCW.fullPathName (udimIndexArray indeterminateZero quadCW) out :=
  (c9_formatting_keeps_order indeterminateZero ⟨quadCW, false, 1⟩ (by decide!)).2.1

/-- C10: the quad at path `mesh`, triangulated as (0,1,2) and (0,2,3), gives the
empty result with UVs (0,0), (1,0), (1,1), (0,1) and the face identifier twice
with UVs (0,0), (0,1), (1,1), (1,0). -/
theorem c10_overlap_example (ind : Indeterminate) (verbose : Bool) (checkNumber : Nat) :
    UvChecker.findOverlaps ind
        ⟨quadMesh [(0, 0), (1, 0), (1, 1), (0, 1)], verbose, checkNumber⟩
        = ⟨MStatus.kSuccess, some []⟩
      ∧ UvChecker.findOverlaps ind
        ⟨quadMesh [(0, 0), (0, 1), (1, 1), (1, 0)], verbose, checkNumber⟩
        = ⟨MStatus.kSuccess, some ["mesh.f[0]", "mesh.f[0]"]⟩ := by
  have hok1 : OverlapLookupsOk (quadMesh [(0, 0), (1, 0), (1, 1), (0, 1)]) := by decide!
  have hok2 : OverlapLookupsOk (quadMesh [(0, 0), (0, 1), (1, 1), (1, 0)]) := by decide!
  have h1 : overlapEntries (quadMesh [(0, 0), (1, 0), (1, 1), (0, 1)]) = [] := by decide!
  have h2 : overlapEntries (quadMesh [(0, 0), (0, 1), (1, 1), (1, 0)])
      = ["mesh.f[0]", "mesh.f[0]"] := by decide!
  constructor
  · rw [findOverlaps_eq_overlapEntries ind _ hok1]
    simp only [h1]
  · rw [findOverlaps_eq_overlapEntries ind _ hok2]
    simp only [h2]

/-! ## The UDIM pass as a set of members -/

theorem sorted_ext {l₁ l₂ : List Int} (h₁ : l₁.Sorted (· < ·)) (h₂ : l₂.Sorted (· < ·))
    (h : ∀ x, x ∈ l₁ ↔ x ∈ l₂) : l₁ = l₂ :=
  List.eq_of_perm_of_sorted ((List.perm_ext_iff_of_nodup h₁.nodup h₂.nodup).mpr h) h₁ h₂

theorem udimIndexSet_mem_iff_crossing (ind : Indeterminate) (mesh : Mesh)
    (hok : UdimLookupsOk mesh) (x : Int) :
    x ∈ udimIndexSet ind mesh ↔ CrossingEndpoint mesh x := by
  constructor
  · exact udimIndexSet_origin ind mesh hok x
  · rintro ⟨poly, hp, i, a, b, hedge, rfl | rfl⟩
    · exact (udimIndexSet_mem_of_crossing ind mesh poly hp i _ b hedge).1
    · exact (udimIndexSet_mem_of_crossing ind mesh poly hp i a _ hedge).2

theorem udimIndexArray_indeterminate (ind ind' : Indeterminate) (mesh : Mesh)
    (hok : UdimLookupsOk mesh) :
    udimIndexArray ind' mesh = udimIndexArray ind mesh := by
  rw [udimIndexArray_eq_indexSet, udimIndexArray_eq_indexSet]
  apply sorted_ext (udimIndexSet_sorted ind' mesh) (udimIndexSet_sorted ind mesh)
  intro x
  rw [udimIndexSet_mem_iff_crossing ind' mesh hok, udimIndexSet_mem_iff_crossing ind mesh hok]

/-- C11: a mesh of one triangle face whose loop positions carry three distinct
UV ids with coordinates (0.2, 0.2), (1.8, 0.3) and (0.3, 1.9): all three edges
cross tile borders and the UDIM pass reports exactly the three UV ids, so the
result has length 3 and is ascending. -/
theorem c11_udim_example (ind : Indeterminate) (self : UvChecker) (poly : Polygon)
    (a b c : Int) (hfaces : self.mDagPath.polygons = [poly])
    (hlen : poly.vertices.length = 3)
    (ha : poly.getUVIndex 0 = some a) (hb : poly.getUVIndex 1 = some b)
    (hc : poly.getUVIndex 2 = some c)
    (hab : a ≠ b) (hbc : b ≠ c) (hac : a ≠ c)
    (hua : self.mDagPath.getUV a = some (1 / 5, 1 / 5))
    (hub : self.mDagPath.getUV b = some (9 / 5, 3 / 10))
    (huc : self.mDagPath.getUV c = some (3 / 10, 19 / 10)) :
    EdgeCrosses self.mDagPath poly 0 a b
      ∧ EdgeCrosses self.mDagPath poly 1 b c
      ∧ EdgeCrosses self.mDagPath poly 2 c a
      ∧ (∀ x, x ∈ udimIndexArray ind self.mDagPath ↔ x = a ∨ x = b ∨ x = c)
      ∧ (udimIndexArray ind self.mDagPath).length = 3
      ∧ (udimIndexArray ind self.mDagPath).Sorted (· < ·)
      ∧ ∃ out, self.findUdimIntersections ind = ⟨MStatus.kSuccess, some out⟩
          ∧ out = (udimIndexArray ind self.mDagPath).map (componentName self.mDagPath)
          ∧ out.length = 3 := by
  have hp : poly ∈ self.mDagPath.polygons := by
    rw [hfaces]
    exact List.mem_singleton.mpr rfl
  have e0 : EdgeCrosses self.mDagPath poly 0 a b := by
    refine ⟨by omega, ha, ?_, _, _, hua, hub, by decide!⟩
    rw [hlen]
    exact hb
  have e1 : EdgeCrosses self.mDagPath poly 1 b c := by
    refine ⟨by omega, hb, ?_, _, _, hub, huc, by decide!⟩
    rw [hlen]
    exact hc
  have e2 : EdgeCrosses self.mDagPath poly 2 c a := by
    refine ⟨by omega, hc, ?_, _, _, huc, hua, by decide!⟩
    rw [hlen]
    exact ha
  have hok : UdimLookupsOk self.mDagPath := by
    intro q hq i hi
    rw [hfaces] at hq
    have hq' : q = poly := List.mem_singleton.mp hq
    subst hq'
    rw [hlen] at hi
    have hi3 : i < 3 := List.mem_range.mp hi
    interval_cases i
    · exact Option.isSome_iff_exists.mpr ⟨_, Mesh.getUVIndex_eq_some.mpr ⟨ha, hua⟩⟩
    · exact Option.isSome_iff_exists.mpr ⟨_, Mesh.getUVIndex_eq_some.mpr ⟨hb, hub⟩⟩
    · exact Option.isSome_iff_exists.mpr ⟨_, Mesh.getUVIndex_eq_some.mpr ⟨hc, huc⟩⟩
  have hmem : ∀ x, x ∈ udimIndexArray ind self.mDagPath ↔ x = a ∨ x = b ∨ x = c := by
    intro x
    rw [udimIndexArray_eq_indexSet]
    constructor
    · intro hx
      obtain ⟨q, hq, i, a', b', ⟨hi, ha', hb', _⟩, hxab⟩ :=
        udimIndexSet_origin ind self.mDagPath hok x hx
      rw [hfaces] at hq
      have hq' : q = poly := List.mem_singleton.mp hq
      subst hq'
      rw [hlen] at hi hb'
      interval_cases i
      · have h1 : a = a' := Option.some.inj (ha.symm.trans ha')
        have h2 : b = b' := Option.some.inj (hb.symm.trans hb')
        subst h1 h2
        tauto
      · have h1 : b = a' := Option.some.inj (hb.symm.trans ha')
        have h2 : c = b' := Option.some.inj (hc.symm.trans hb')
        subst h1 h2
        tauto
      · have h1 : c = a' := Option.some.inj (hc.symm.trans ha')
        have h2 : a = b' := Option.some.inj (ha.symm.trans hb')
        subst h1 h2
        tauto
    · rintro (rfl | rfl | rfl)
      · exact (udimIndexSet_mem_of_crossing ind self.mDagPath poly hp 0 _ _ e0).1
      · exact (udimIndexSet_mem_of_crossing ind self.mDagPath poly hp 0 _ _ e0).2
      · exact (udimIndexSet_mem_of_crossing ind self.mDagPath poly hp 1 _ _ e1).2
  have hsorted : (udimIndexArray ind self.mDagPath).Sorted (· < ·) := by
    rw [udimIndexArray_eq_indexSet]
    exact udimIndexSet_sorted ind self.mDagPath
  have hnodup : [a, b, c].Nodup := by
    simp only [List.nodup_cons, List.mem_cons, List.mem_singleton, List.not_mem_nil,
      not_or, not_false_eq_true, List.nodup_nil, and_true]
    exact ⟨⟨hab, hac⟩, hbc⟩
  have hlen3 : (udimIndexArray ind self.mDagPath).length = 3 := by
    have hperm : (udimIndexArray ind self.mDagPath).Perm [a, b, c] :=
      (List.perm_ext_iff_of_nodup hsorted.nodup hnodup).mpr (by
        intro x
        rw [hmem x]
        simp)
    exact hperm.length_eq
  refine ⟨e0, e1, e2, hmem, hlen3, hsorted, _, ?_, rfl, ?_⟩
  · unfold UvChecker.findUdimIntersections
    simp only [formatIndices_eq_map]
  · rw [List.length_map, hlen3]

/-- Witness of C11: the triangle with UV ids 0, 1, 2. -/
theorem c11_udim_example_witness :
    (udimIndexArray indeterminateZero crossingTriangle).length = 3
      ∧ (udimIndexArray indeterminateZero crossingTriangle).Sorted (· < ·) :=
  ⟨(c11_udim_example indeterminateZero ⟨crossingTriangle, false, 1⟩ triangleFace 0 1 2
      rfl rfl (by decide) (by decide) (by decide) (by decide) (by decide) (by decide)
      (by decide!) (by decide!) (by decide!)).2.2.2.2.1,
    (c11_udim_example indeterminateZero ⟨crossingTriangle, false, 1⟩ triangleFace 0 1 2
      rfl rfl (by decide) (by decide) (by decide) (by decide) (by decide) (by decide)
      (by decide!) (by decide!) (by decide!)).2.2.2.2.2.1⟩

/-- The locals of the face loop of the UDIM pass keep their contents from one
face to the next: with an unmapped loop position the second face reads the
UV id left by the first, and the result depends on the order of the faces. -/
theorem udim_locals_carry_over :
    ¬ UdimLookupsOk ⟨"mesh", [staleFaceA, staleFaceB], staleTable⟩
      ∧ udimIndexArray indeterminateZero ⟨"mesh", [staleFaceA, staleFaceB], staleTable⟩
          = [3, 4]
      ∧ udimIndexArray indeterminateZero ⟨"mesh", [staleFaceB, staleFaceA], staleTable⟩
          = [] := by
  refine ⟨by decide!, by decide!, by decide!⟩

theorem cornerLoop_withPolygons (mesh : Mesh) (ps : List Polygon) (poly : Polygon) :
    ∀ (xs : List Int) (n : Nat) (st : CornerState),
      cornerLoop (mesh.withPolygons ps) poly xs n st = cornerLoop mesh poly xs n st := by
  intro xs
  induction xs with
  | nil => intro n st; rfl
  | cons x xs ih =>
    intro n st
    simp only [cornerLoop]
    rw [ih]
    rfl

theorem overlapEntries_withPolygons (mesh : Mesh) (ps : List Polygon) :
    overlapEntries (mesh.withPolygons ps) = ps.flatMap (faceEntries mesh) :=
  rfl

/-- The locals of the triangle loop of the overlap pass keep their contents
from one face to the next: a face with an unmapped first loop position takes
the coordinate left by the face before it, so each of two faces alone gives
the empty result and the two in sequence report the second. -/
theorem overlap_locals_carry_over :
    ¬ OverlapLookupsOk ⟨"mesh", [soundFace, halfMappedFace], squareTable⟩
      ∧ UvChecker.findOverlaps indeterminateZero
          ⟨⟨"mesh", [soundFace], squareTable⟩, false, 0⟩ = ⟨MStatus.kSuccess, some []⟩
      ∧ UvChecker.findOverlaps indeterminateZero
          ⟨⟨"mesh", [halfMappedFace], squareTable⟩, false, 0⟩
          = ⟨MStatus.kSuccess, some []⟩
      ∧ UvChecker.findOverlaps indeterminateZero
          ⟨⟨"mesh", [soundFace, halfMappedFace], squareTable⟩, false, 0⟩
          = ⟨MStatus.kSuccess, some ["mesh.f[1]"]⟩ := by
  refine ⟨by decide!, by decide!, by decide!, by decide!⟩

/-- C14: on a mesh snapshot whose lookups succeed the output of either
detector is a function of the snapshot alone: two runs on the same mesh give
the same status and the same ordered result, whatever the uninitialised
locals hold and whatever the other fields of the command are.  On any mesh
the output does not depend on the other fields of the command. -/
theorem c14_determinism (ind ind' : Indeterminate) (self self' : UvChecker)
    (hmesh : self'.mDagPath = self.mDagPath) :
    (OverlapLookupsOk self.mDagPath →
        self'.findOverlaps ind' = self.findOverlaps ind
          ∧ self.findOverlaps ind
            = ⟨MStatus.kSuccess, some (overlapEntries self.mDagPath)⟩)
      ∧ (UdimLookupsOk self.mDagPath →
        self'.findUdimIntersections ind' = self.findUdimIntersections ind
          ∧ udimIndexArray ind' self.mDagPath = udimIndexArray ind self.mDagPath)
      ∧ self'.findOverlaps ind = self.findOverlaps ind
      ∧ self'.findUdimIntersections ind = self.findUdimIntersections ind := by
  refine ⟨?_, ?_, ?_, ?_⟩
  rotate_left 2
  · unfold UvChecker.findOverlaps findOverlapsWith
    rw [hmesh]
  · unfold UvChecker.findUdimIntersections
    rw [hmesh]
  · intro hok
    have hok' : OverlapLookupsOk self'.mDagPath := by
      rw [hmesh]
      exact hok
    refine ⟨?_, findOverlaps_eq_overlapEntries ind self hok⟩
    rw [findOverlaps_eq_overlapEntries ind self hok,
      findOverlaps_eq_overlapEntries ind' self' hok', hmesh]
  · intro hok
    have harr := udimIndexArray_indeterminate ind ind' self.mDagPath hok
    refine ⟨?_, harr⟩
    unfold UvChecker.findUdimIntersections
    simp only [hmesh, harr]

/-- Witness of C14: two runs on the clockwise quad with different contents of
the uninitialised locals and different command fields. -/
theorem c14_determinism_witness :
    UvChecker.findOverlaps indeterminateStale ⟨quadCW, true, 7⟩
        = UvChecker.findOverlaps indeterminateZero ⟨quadCW, false, 0⟩
      ∧ UvChecker.findUdimIntersections indeterminateStale ⟨quadCW, true, 7⟩
        = UvChecker.findUdimIntersections indeterminateZero ⟨quadCW, false, 0⟩ :=
  ⟨((c14_determinism indeterminateZero indeterminateStale
      ⟨quadCW, false, 0⟩ ⟨quadCW, true, 7⟩ rfl).1 (by decide!)).1,
    ((c14_determinism indeterminateZero indeterminateStale
      ⟨quadCW, false, 0⟩ ⟨quadCW, true, 7⟩ rfl).2.1 (by decide!)).1⟩

theorem udimEdge_eq_between (mesh : Mesh) (poly : Polygon) (vCount : Int)
    (st : UdimLocals × List Int) (i : Nat) :
    udimEdge mesh poly vCount st i
      = udimEdgeBetween mesh poly st (i : Int) (nextPosition vCount i) := by
  unfold udimEdge udimEdgeBetween nextPosition
  by_cases h : (i : Int) = vCount - 1
  · simp only [if_pos h]
  · simp only [if_neg h]

/-- C15: on a face of `n` vertices the position the UDIM pass pairs with
position `i < n` is `(i + 1) mod n`; the pass runs the edge body once for each
`i` in `0 .. n-1` on the pair `(i, (i + 1) mod n)`, so it examines exactly `n`
edges, no pair twice, the wrap-around edge `(n - 1, 0)` among them. -/
theorem c15_edge_walk (mesh : Mesh) (poly : Polygon) (i : Nat)
    (hi : i < poly.vertices.length) :
    nextPosition poly.polygonVertexCount i = (((i + 1) % poly.vertices.length : Nat) : Int)
      ∧ (∀ st, udimEdge mesh poly poly.polygonVertexCount st i
          = udimEdgeBetween mesh poly st (i : Int)
              (((i + 1) % poly.vertices.length : Nat) : Int))
      ∧ (∀ st, udimFace mesh st poly
          = (List.range poly.vertices.length).foldl
              (fun st (k : Nat) => udimEdgeBetween mesh poly st (k : Int)
                (((k + 1) % poly.vertices.length : Nat) : Int)) st)
      ∧ examinedEdges poly.vertices.length
          = (List.range poly.vertices.length).map
              (fun (k : Nat) => ((k : Int), (((k + 1) % poly.vertices.length : Nat) : Int)))
      ∧ (examinedEdges poly.vertices.length).length = poly.vertices.length
      ∧ (examinedEdges poly.vertices.length).Nodup
      ∧ (((poly.vertices.length - 1 : Nat) : Int), (0 : Int))
          ∈ examinedEdges poly.vertices.length := by
  have hnext : ∀ k, k < poly.vertices.length →
      nextPosition poly.polygonVertexCount k
        = (((k + 1) % poly.vertices.length : Nat) : Int) := by
    intro k hk
    unfold nextPosition Polygon.polygonVertexCount
    exact nextPosition_eq_mod poly.vertices.length k hk
  have hedges : examinedEdges poly.vertices.length
      = (List.range poly.vertices.length).map
          (fun (k : Nat) => ((k : Int), (((k + 1) % poly.vertices.length : Nat) : Int))) := by
    unfold examinedEdges
    apply List.map_congr_left
    intro k hk
    have := hnext k (List.mem_range.mp hk)
    unfold Polygon.polygonVertexCount at this
    rw [this]
  refine ⟨hnext i hi, ?_, ?_, hedges, ?_, ?_, ?_⟩
  · intro st
    rw [udimEdge_eq_between, hnext i hi]
  · intro s
    unfold udimFace
    simp only [Polygon.polygonVertexCount, Int.toNat_ofNat]
    apply List.foldl_ext
    intro st k hk
    have := hnext k (List.mem_range.mp hk)
    unfold Polygon.polygonVertexCount at this
    rw [udimEdge_eq_between, this]
  · unfold examinedEdges
    rw [List.length_map, List.length_range]
  · rw [hedges]
    apply List.Nodup.map_on _ (List.nodup_range _)
    intro x _ y _ hxy
    have h1 : (x : Int) = (y : Int) := (Prod.mk.inj hxy).1
    exact Int.ofNat_inj.mp h1
  · rw [hedges]
    apply List.mem_map.mpr
    refine ⟨poly.vertices.length - 1, List.mem_range.mpr (by omega), ?_⟩
    have hmod : (poly.vertices.length - 1 + 1) % poly.vertices.length = 0 := by
      rw [Nat.sub_add_cancel (by omega), Nat.mod_self]
    rw [hmod]
    rfl

/-- Witness of C15: the wrap-around edge of a triangle face, position 2. -/
theorem c15_edge_walk_witness :
    nextPosition triangleFace.polygonVertexCount 2 = 0
      ∧ examinedEdges 3 = [(0, 1), (1, 2), (2, 0)] :=
  ⟨(c15_edge_walk crossingTriangle triangleFace 2 (by decide)).1,
    (c15_edge_walk crossingTriangle triangleFace 2 (by decide)).2.2.2.1⟩
/-! ## The vertex map of a face, by position -/

theorem fillVtxMap_last :
    ∀ (xs : List Int) (k : Nat) (m : StdMap) (i : Nat) (hi : i < xs.length),
      (∀ j (hj : j < xs.length), i < j → xs.get ⟨j, hj⟩ ≠ xs.get ⟨i, hi⟩) →
      fillVtxMap xs k m (xs.get ⟨i, hi⟩) = some ((k + i : Nat) : Int) := by
  intro xs
  induction xs with
  | nil => intro k m i hi; exact absurd hi (Nat.not_lt_zero i)
  | cons y ys ih =>
    intro k m i hi hlast
    cases i with
    | zero =>
      have hy : y ∉ ys := by
        intro hmem
        obtain ⟨j, hj, hjy⟩ := List.mem_iff_getElem.mp hmem
        exact hlast (j + 1) (by simp only [List.length_cons]; omega) (by omega)
          (by simpa using hjy)
      simp only [fillVtxMap, List.get_eq_getElem, List.getElem_cons_zero]
      rw [fillVtxMap_not_mem ys (k + 1) _ y hy]
      simp [StdMap.assign]
    | succ i =>
      have hi' : i < ys.length := by
        simp only [List.length_cons] at hi
        omega
      have hlast' : ∀ j (hj : j < ys.length), i < j → ys.get ⟨j, hj⟩ ≠ ys.get ⟨i, hi'⟩ := by
        intro j hj hij
        have := hlast (j + 1) (by simp only [List.length_cons]; omega) (by omega)
        simpa using this
      have h := ih (k + 1) (StdMap.assign m y (k : Int)) i hi' hlast'
      simp only [fillVtxMap, List.get_eq_getElem, List.getElem_cons_succ]
      simp only [List.get_eq_getElem] at h
      rw [h]
      congr 2
      omega

theorem localIndex_last (poly : Polygon) (i : Nat) (hi : i < poly.vertices.length)
    (hlast : ∀ j (hj : j < poly.vertices.length), i < j →
      poly.vertices.get ⟨j, hj⟩ ≠ poly.vertices.get ⟨i, hi⟩) :
    localIndex poly (poly.vertices.get ⟨i, hi⟩) = (i : Int) := by
  unfold localIndex Polygon.getVertices
  rw [StdMap.index_fst, fillVtxMap_last poly.vertices 0 StdMap.empty i hi hlast]
  simp

/-- C16: the position the overlap pass looks up for a corner whose vertex id
is the entry `i` of the vertex loop is `i` whenever no later loop position
holds the same vertex id (the last position holding the id is used); with
pairwise distinct vertex ids this is every position.  The UV coordinate used
for the corner is then the one at loop position `i` of the face.  A vertex id
that is not in the loop is looked up as position 0. -/
theorem c16_corner_resolution (mesh : Mesh) (poly : Polygon) (i : Nat)
    (hi : i < poly.vertices.length)
    (hlast : ∀ j (hj : j < poly.vertices.length), i < j →
      poly.vertices.get ⟨j, hj⟩ ≠ poly.vertices.get ⟨i, hi⟩) :
    (StdMap.index (fillVtxMap poly.getVertices 0 StdMap.empty)
        (poly.vertices.get ⟨i, hi⟩)).1 = (i : Int)
      ∧ localIndex poly (poly.vertices.get ⟨i, hi⟩) = (i : Int)
      ∧ cornerUV mesh poly (poly.vertices.get ⟨i, hi⟩)
        = (mesh.getUVIndex poly (i : Int)).map (fun r => ⟨r.2.1, r.2.2⟩)
      ∧ (∀ (st : CornerState) (n : Nat) (r : Int × ℚ × ℚ),
          (∀ k, (StdMap.index st.vtxMap k).1 = localIndex poly k) →
          mesh.getUVIndex poly (i : Int) = some r →
          (cornerStep mesh poly st n (poly.vertices.get ⟨i, hi⟩)).uvPointArray
            = st.uvPointArray.set n ⟨r.2.1, r.2.2⟩)
      ∧ (poly.vertices.Nodup → ∀ k (hk : k < poly.vertices.length),
          localIndex poly (poly.vertices.get ⟨k, hk⟩) = (k : Int))
      ∧ (∀ x, x ∉ poly.vertices → localIndex poly x = 0)
      ∧ (∀ x, localIndex poly x = loopPosition poly x) := by
  have hloc := localIndex_last poly i hi hlast
  have hcorner : cornerUV mesh poly (poly.vertices.get ⟨i, hi⟩)
      = (mesh.getUVIndex poly (i : Int)).map (fun r => ⟨r.2.1, r.2.2⟩) := by
    unfold cornerUV
    rw [← localIndex_eq_loopPosition, hloc]
  refine ⟨hloc, hloc, hcorner, ?_, ?_, ?_, localIndex_eq_loopPosition poly⟩
  · intro st n r hm hr
    refine (cornerStep_resolved mesh poly st n _ ⟨r.2.1, r.2.2⟩ hm ?_).1
    rw [hcorner, hr]
    rfl
  · intro hnodup k hk
    apply localIndex_last poly k hk
    intro j hj hkj heq
    have := (List.Nodup.getElem_inj_iff hnodup).mp heq
    omega
  · intro x hx
    unfold localIndex Polygon.getVertices
    rw [StdMap.index_fst, fillVtxMap_not_mem poly.vertices 0 StdMap.empty x hx]
    rfl

/-- Witness of C16: in a loop holding vertex id 7 at positions 0 and 2, the
corner with vertex id 7 is looked up as position 2. -/
theorem c16_corner_resolution_witness :
    localIndex pinchedFace 7 = 2 :=
  (c16_corner_resolution collinearTriangle pinchedFace 2 (by decide)
    (by
      intro j hj h
      have hlen : pinchedFace.vertices.length = 3 := rfl
      omega)).2.1

/-! ## Translated UV layouts -/

theorem getUV_translate (mesh : Mesh) (du dv : ℚ) (uvId : Int) :
    (mesh.translate du dv).getUV uvId
      = (mesh.getUV uvId).map (fun uv => (uv.1 + du, uv.2 + dv)) := by
  unfold Mesh.getUV Mesh.translate
  by_cases h : uvId < 0
  · simp [h]
  · simp only [h, if_false, List.get?_eq_getElem?, List.getElem?_map]

theorem getUVIndex_translate (mesh : Mesh) (du dv : ℚ) (poly : Polygon) (vertex : Int) :
    (mesh.translate du dv).getUVIndex poly vertex
      = (mesh.getUVIndex poly vertex).map (fun r => (r.1, r.2.1 + du, r.2.2 + dv)) := by
  unfold Mesh.getUVIndex
  cases h1 : poly.getUVIndex vertex with
  | none => rfl
  | some uvId =>
    simp only [getUV_translate]
    cases h2 : mesh.getUV uvId with
    | none => rfl
    | some uv => rfl

theorem udimTile_translate (uv : ℚ × ℚ) (a b : Int) :
    udimTile (uv.1 + (a : ℚ), uv.2 + (b : ℚ)) = ((udimTile uv).1 + a, (udimTile uv).2 + b) := by
  unfold udimTile
  simp only [Int.floor_add_int]

theorem udimLookupsOk_translate (mesh : Mesh) (du dv : ℚ) :
    UdimLookupsOk (mesh.translate du dv) ↔ UdimLookupsOk mesh := by
  unfold UdimLookupsOk
  simp only [getUVIndex_translate, Option.isSome_map']
  rfl

theorem edgeCrosses_translate (mesh : Mesh) (a b : Int) (poly : Polygon) (i : Nat)
    (x y : Int) :
    EdgeCrosses (mesh.translate (a : ℚ) (b : ℚ)) poly i x y ↔ EdgeCrosses mesh poly i x y := by
  unfold EdgeCrosses
  simp only [getUV_translate, Option.map_eq_some']
  constructor
  · rintro ⟨hi, hx, hy, pa, pb, ⟨qa, hqa, rfl⟩, ⟨qb, hqb, rfl⟩, hne⟩
    refine ⟨hi, hx, hy, qa, qb, hqa, hqb, ?_⟩
    intro heq
    apply hne
    rw [udimTile_translate, udimTile_translate, heq]
  · rintro ⟨hi, hx, hy, qa, qb, hqa, hqb, hne⟩
    refine ⟨hi, hx, hy, _, _, ⟨qa, hqa, rfl⟩, ⟨qb, hqb, rfl⟩, ?_⟩
    intro heq
    apply hne
    rw [udimTile_translate, udimTile_translate] at heq
    have h1 := (Prod.mk.inj heq).1
    have h2 := (Prod.mk.inj heq).2
    exact Prod.ext (by omega) (by omega)

theorem crossingEndpoint_translate (mesh : Mesh) (a b : Int) (x : Int) :
    CrossingEndpoint (mesh.translate (a : ℚ) (b : ℚ)) x ↔ CrossingEndpoint mesh x := by
  unfold CrossingEndpoint
  simp only [edgeCrosses_translate]
  rfl

/-- C17: moving every UV coordinate by whole tiles, (u, v) to (u + a, v + b)
with integers a and b, moves every tile by (a, b) and leaves the output of
`findUdimIntersections` as it was, on every mesh whose lookups succeed. -/
theorem c17_udim_tile_translation (ind : Indeterminate) (self : UvChecker) (a b : Int)
    (hok : UdimLookupsOk self.mDagPath) :
    UvChecker.findUdimIntersections ind
        ⟨self.mDagPath.translate (a : ℚ) (b : ℚ), self.verbose, self.checkNumber⟩
        = self.findUdimIntersections ind
      ∧ udimIndexArray ind (self.mDagPath.translate (a : ℚ) (b : ℚ))
        = udimIndexArray ind self.mDagPath
      ∧ ∀ uv : ℚ × ℚ, udimTile (uv.1 + (a : ℚ), uv.2 + (b : ℚ))
          = ((udimTile uv).1 + a, (udimTile uv).2 + b) := by
  have hok' : UdimLookupsOk (self.mDagPath.translate (a : ℚ) (b : ℚ)) :=
    (udimLookupsOk_translate self.mDagPath a b).mpr hok
  have harr : udimIndexArray ind (self.mDagPath.translate (a : ℚ) (b : ℚ))
      = udimIndexArray ind self.mDagPath := by
    rw [udimIndexArray_eq_indexSet, udimIndexArray_eq_indexSet]
    apply sorted_ext (udimIndexSet_sorted ind _) (udimIndexSet_sorted ind _)
    intro x
    rw [udimIndexSet_mem_iff_crossing ind _ hok', udimIndexSet_mem_iff_crossing ind _ hok,
      crossingEndpoint_translate]
  refine ⟨?_, harr, fun uv => udimTile_translate uv a b⟩
  unfold UvChecker.findUdimIntersections
  simp only [harr]
  rfl

/-- Witness of C17: the crossing triangle moved by (2, -1). -/
theorem c17_udim_tile_translation_witness :
    UvChecker.findUdimIntersections indeterminateZero
        ⟨crossingTriangle.translate ((2 : Int) : ℚ) ((-1 : Int) : ℚ), false, 1⟩
      = UvChecker.findUdimIntersections indeterminateZero ⟨crossingTriangle, false, 1⟩ :=
  (c17_udim_tile_translation indeterminateZero ⟨crossingTriangle, false, 1⟩ 2 (-1)
    (by decide!)).1

theorem cornerUV_translate (mesh : Mesh) (du dv : ℚ) (poly : Polygon) (x : Int) :
    cornerUV (mesh.translate du dv) poly x
      = (cornerUV mesh poly x).map (fun P => P.translate du dv) := by
  unfold cornerUV
  rw [getUVIndex_translate]
  cases mesh.getUVIndex poly (loopPosition poly x) <;> rfl

theorem triangleCorners_translate (mesh : Mesh) (du dv : ℚ) (poly : Polygon)
    (t : Int × Int × Int) :
    triangleCorners (mesh.translate du dv) poly t
      = (triangleCorners mesh poly t).map
          (fun c => (c.1.translate du dv, c.2.1.translate du dv, c.2.2.translate du dv)) := by
  unfold triangleCorners
  simp only [cornerUV_translate]
  cases cornerUV mesh poly t.1 <;> cases cornerUV mesh poly t.2.1
    <;> cases cornerUV mesh poly t.2.2 <;> rfl

theorem signedArea_translate (A B C : UVPoint) (du dv : ℚ) :
    signedArea (A.translate du dv) (B.translate du dv) (C.translate du dv)
      = signedArea A B C := by
  unfold signedArea UVPoint.translate
  ring

theorem isInvertedExact_translate (mesh : Mesh) (du dv : ℚ) (poly : Polygon)
    (t : Int × Int × Int) :
    isInvertedExact (mesh.translate du dv) poly t = isInvertedExact mesh poly t := by
  unfold isInvertedExact
  rw [triangleCorners_translate]
  cases triangleCorners mesh poly t with
  | none => rfl
  | some c => simp only [Option.map_some', signedArea_translate]

theorem overlapLookupsOk_translate (mesh : Mesh) (du dv : ℚ) :
    OverlapLookupsOk (mesh.translate du dv) ↔ OverlapLookupsOk mesh := by
  unfold OverlapLookupsOk
  simp only [triangleCorners_translate, Option.isSome_map']
  rfl

theorem overlapEntriesExact_translate (mesh : Mesh) (du dv : ℚ) :
    overlapEntriesExact (mesh.translate du dv) = overlapEntriesExact mesh := by
  unfold overlapEntriesExact
  simp only [isInvertedExact_translate]
  rfl

/-- C18: over exact arithmetic, moving every UV coordinate by (du, dv) leaves
the signed area of every triangle unchanged, and with it the output of
`findOverlaps`, on every mesh whose lookups succeed. -/
theorem c18_overlap_translation (ind : Indeterminate) (self : UvChecker) (du dv : ℚ)
    (hok : OverlapLookupsOk self.mDagPath) :
    findOverlapsWith exactArith ind
        ⟨self.mDagPath.translate du dv, self.verbose, self.checkNumber⟩
        = findOverlapsWith exactArith ind self
      ∧ (∀ A B C : UVPoint,
          triangleAreaWith exactArith
              ⟨A.translate du dv, B.translate du dv, C.translate du dv⟩
            = triangleAreaWith exactArith ⟨A, B, C⟩)
      ∧ (∀ A B C : UVPoint,
          signedArea (A.translate du dv) (B.translate du dv) (C.translate du dv)
            = signedArea A B C)
      ∧ (∀ (poly : Polygon) (t : Int × Int × Int),
          triangleCorners (self.mDagPath.translate du dv) poly t
            = (triangleCorners self.mDagPath poly t).map
                (fun c => (c.1.translate du dv, c.2.1.translate du dv,
                  c.2.2.translate du dv)))
      ∧ (∀ (poly : Polygon) (t : Int × Int × Int),
          isInvertedExact (self.mDagPath.translate du dv) poly t
            = isInvertedExact self.mDagPath poly t) := by
  have hok' : OverlapLookupsOk (self.mDagPath.translate du dv) :=
    (overlapLookupsOk_translate self.mDagPath du dv).mpr hok
  refine ⟨?_, ?_, fun A B C => signedArea_translate A B C du dv,
    triangleCorners_translate self.mDagPath du dv,
    isInvertedExact_translate self.mDagPath du dv⟩
  · rw [findOverlapsExact_eq_entries ind self hok,
      findOverlapsExact_eq_entries ind _ hok']
    simp only [overlapEntriesExact_translate]
  · intro A B C
    rw [triangleAreaWith_mk, triangleAreaWith_mk, signedAreaWith_exact,
      signedAreaWith_exact, signedArea_translate]

/-- Witness of C18: the clockwise quad moved by (1/3, -5/2). -/
theorem c18_overlap_translation_witness :
    findOverlapsWith exactArith indeterminateZero
        ⟨quadCW.translate (1 / 3) (-5 / 2), false, 0⟩
      = findOverlapsWith exactArith indeterminateZero ⟨quadCW, false, 0⟩ :=
  (c18_overlap_translation indeterminateZero ⟨quadCW, false, 0⟩ (1 / 3) (-5 / 2)
    (by decide!)).1

/-- C19 fails as stated: for a triangle with binary32 coordinates the area of
line 153 computed for the corners (A, B, C) is `-1/2^30`, and the one
computed for (B, C, A) and for (C, A, B) is `0`; the triangle is reported
when its corners are listed from A and not when they are listed from B. -/
theorem c19_counterexample :
    OverlapLookupsOk thinTriangle
      ∧ (∀ uv ∈ thinTriangle.uvTable, F32.Representable uv.1 ∧ F32.Representable uv.2)
      ∧ triangleArea ⟨⟨41123 / 65536, 44580 / 65536⟩, ⟨43971 / 65536, 46015 / 65536⟩,
          ⟨55365 / 65536, 51756 / 65536⟩⟩ = F32.finite (-1 / 2 ^ 30)
      ∧ triangleArea ⟨⟨43971 / 65536, 46015 / 65536⟩, ⟨55365 / 65536, 51756 / 65536⟩,
          ⟨41123 / 65536, 44580 / 65536⟩⟩ = F32.finite 0
      ∧ triangleArea ⟨⟨55365 / 65536, 51756 / 65536⟩, ⟨41123 / 65536, 44580 / 65536⟩,
          ⟨43971 / 65536, 46015 / 65536⟩⟩ = F32.finite 0
      ∧ triangleCorners thinTriangle triangleFace (0, 1, 2)
          = some (⟨41123 / 65536, 44580 / 65536⟩, ⟨43971 / 65536, 46015 / 65536⟩,
              ⟨55365 / 65536, 51756 / 65536⟩)
      ∧ UvChecker.findOverlaps indeterminateZero ⟨thinTriangle, false, 0⟩
          = ⟨MStatus.kSuccess, some ["mesh.f[0]"]⟩
      ∧ OverlapLookupsOk thinTriangleRotated
      ∧ triangleCorners thinTriangleRotated triangleFace (0, 1, 2)
          = some (⟨43971 / 65536, 46015 / 65536⟩, ⟨55365 / 65536, 51756 / 65536⟩,
              ⟨41123 / 65536, 44580 / 65536⟩)
      ∧ UvChecker.findOverlaps indeterminateZero ⟨thinTriangleRotated, false, 0⟩
          = ⟨MStatus.kSuccess, some []⟩ := by
  refine ⟨by decide!, by decide!, by decide!, by decide!, by decide!, by decide!,
    by decide!, by decide!, by decide!, by decide!⟩

/-- C19, as the code has it.  Over exact arithmetic the signed area of the
corners (B, C, A) and of (C, A, B) equals the one of (A, B, C), so a triangle
is reported or not regardless of which corner the triangulation lists first.
In binary32 the three orders compute the same three products and differ in
the order in which line 153 sums them; the triangle loop reports a triangle
exactly when the area computed for the listed order is negative. -/
theorem c19_rotation_invariant (ind : Indeterminate) (mesh : Mesh) (poly : Polygon)
    (st : FaceState) (i : Nat) (t : Int × Int × Int) (A B C : UVPoint)
    (hm : ∀ k, (StdMap.index st.vtxMap k).1 = localIndex poly k)
    (hc : triangleCorners mesh poly t = some (A, B, C)) :
    triangleAreaWith exactArith ⟨B, C, A⟩ = triangleAreaWith exactArith ⟨A, B, C⟩
      ∧ triangleAreaWith exactArith ⟨C, A, B⟩ = triangleAreaWith exactArith ⟨A, B, C⟩
      ∧ signedArea B C A = signedArea A B C
      ∧ signedArea C A B = signedArea A B C
      ∧ (poly.getTriangle (i : Int) = some [t.1, t.2.1, t.2.2] →
        (overlapTriangleWith exactArith ind mesh poly st i).resultArray
          = st.resultArray ++ (if signedArea A B C < 0
              then [componentName mesh (poly.index : Int)] else []))
      ∧ (poly.getTriangle (i : Int) = some [t.2.1, t.2.2, t.1] →
        (overlapTriangleWith exactArith ind mesh poly st i).resultArray
          = st.resultArray ++ (if signedArea A B C < 0
              then [componentName mesh (poly.index : Int)] else []))
      ∧ (poly.getTriangle (i : Int) = some [t.2.2, t.1, t.2.1] →
        (overlapTriangleWith exactArith ind mesh poly st i).resultArray
          = st.resultArray ++ (if signedArea A B C < 0
              then [componentName mesh (poly.index : Int)] else []))
      ∧ isInvertedExact mesh poly (t.2.1, t.2.2, t.1) = isInvertedExact mesh poly t
      ∧ isInvertedExact mesh poly (t.2.2, t.1, t.2.1) = isInvertedExact mesh poly t
      ∧ triangleArea ⟨A, B, C⟩
          = F32.half (F32.add
              (F32.add
                (F32.mul (F32.finite A.u) (F32.sub (F32.finite B.v) (F32.finite C.v)))
                (F32.mul (F32.finite B.u) (F32.sub (F32.finite C.v) (F32.finite A.v))))
              (F32.mul (F32.finite C.u) (F32.sub (F32.finite A.v) (F32.finite B.v))))
      ∧ triangleArea ⟨B, C, A⟩
          = F32.half (F32.add
              (F32.add
                (F32.mul (F32.finite B.u) (F32.sub (F32.finite C.v) (F32.finite A.v)))
                (F32.mul (F32.finite C.u) (F32.sub (F32.finite A.v) (F32.finite B.v))))
              (F32.mul (F32.finite A.u) (F32.sub (F32.finite B.v) (F32.finite C.v))))
      ∧ triangleArea ⟨C, A, B⟩
          = F32.half (F32.add
              (F32.add
                (F32.mul (F32.finite C.u) (F32.sub (F32.finite A.v) (F32.finite B.v)))
                (F32.mul (F32.finite A.u) (F32.sub (F32.finite B.v) (F32.finite C.v))))
              (F32.mul (F32.finite B.u) (F32.sub (F32.finite C.v) (F32.finite A.v))))
      ∧ (poly.getTriangle (i : Int) = some [t.1, t.2.1, t.2.2] →
        (overlapTriangle ind mesh poly st i).resultArray
          = st.resultArray ++ (if F32.isNegative (triangleArea ⟨A, B, C⟩) = true
              then [componentName mesh (poly.index : Int)] else []))
      ∧ (poly.getTriangle (i : Int) = some [t.2.1, t.2.2, t.1] →
        (overlapTriangle ind mesh poly st i).resultArray
          = st.resultArray ++ (if F32.isNegative (triangleArea ⟨B, C, A⟩) = true
              then [componentName mesh (poly.index : Int)] else []))
      ∧ (poly.getTriangle (i : Int) = some [t.2.2, t.1, t.2.1] →
        (overlapTriangle ind mesh poly st i).resultArray
          = st.resultArray ++ (if F32.isNegative (triangleArea ⟨C, A, B⟩) = true
              then [componentName mesh (poly.index : Int)] else [])) := by
  obtain ⟨hA, hB, hC⟩ := triangleCorners_eq_some hc
  have hc1 : triangleCorners mesh poly (t.2.1, t.2.2, t.1) = some (B, C, A) :=
    triangleCorners_of_corners hB hC hA
  have hc2 : triangleCorners mesh poly (t.2.2, t.1, t.2.1) = some (C, A, B) :=
    triangleCorners_of_corners hC hA hB
  have r1 : signedArea B C A = signedArea A B C := signedArea_rotate A B C
  have r2 : signedArea C A B = signedArea A B C := by
    rw [signedArea_rotate B C A, signedArea_rotate A B C]
  refine ⟨?_, ?_, r1, r2, ?_, ?_, ?_, ?_, ?_, rfl, rfl, rfl, ?_, ?_, ?_⟩
  · rw [triangleAreaWith_mk, triangleAreaWith_mk, signedAreaWith_exact,
      signedAreaWith_exact, r1]
  · rw [triangleAreaWith_mk, triangleAreaWith_mk, signedAreaWith_exact,
      signedAreaWith_exact, r2]
  · intro ht
    exact overlapTriangleExact_resolved ind mesh poly st i t A B C hm ht hc
  · intro ht
    rw [overlapTriangleExact_resolved ind mesh poly st i (t.2.1, t.2.2, t.1) B C A hm ht
      hc1]
    simp only [r1]
  · intro ht
    rw [overlapTriangleExact_resolved ind mesh poly st i (t.2.2, t.1, t.2.1) C A B hm ht
      hc2]
    simp only [r2]
  · rw [isInvertedExact_of_corners hc1, isInvertedExact_of_corners hc]
    simp only [r1]
  · rw [isInvertedExact_of_corners hc2, isInvertedExact_of_corners hc]
    simp only [r2]
  · intro ht
    exact overlapTriangle_resolved ind mesh poly st i t A B C hm ht hc
  · intro ht
    exact overlapTriangle_resolved ind mesh poly st i (t.2.1, t.2.2, t.1) B C A hm ht hc1
  · intro ht
    exact overlapTriangle_resolved ind mesh poly st i (t.2.2, t.1, t.2.1) C A B hm ht hc2

/-- Witness of C19: the first triangle of the clockwise quad, listed from its
first and from its second corner, is reported over exact arithmetic. -/
theorem c19_rotation_invariant_witness :
    isInvertedExact quadCW quadFace (1, 2, 0) = isInvertedExact quadCW quadFace (0, 1, 2)
      ∧ (overlapTriangleWith exactArith indeterminateZero quadCW quadFace
          ⟨[], fillVtxMap quadFace.getVertices 0 StdMap.empty, [], 0, 0,
            indeterminateZero.uvPointArray⟩ 0).resultArray = ["mesh.f[0]"]
      ∧ (overlapTriangleWith exactArith indeterminateZero quadCW quadFaceRotated
          ⟨[], fillVtxMap quadFaceRotated.getVertices 0 StdMap.empty, [], 0, 0,
            indeterminateZero.uvPointArray⟩ 0).resultArray = ["mesh.f[0]"] :=
  ⟨(c19_rotation_invariant indeterminateZero quadCW quadFace
      ⟨[], fillVtxMap quadFace.getVertices 0 StdMap.empty, [], 0, 0,
        indeterminateZero.uvPointArray⟩ 0 (0, 1, 2)
      ⟨0, 0⟩ ⟨0, 1⟩ ⟨1, 1⟩ (fun _ => rfl) (by decide!)).2.2.2.2.2.2.2.1,
    ((c19_rotation_invariant indeterminateZero quadCW quadFace
      ⟨[], fillVtxMap quadFace.getVertices 0 StdMap.empty, [], 0, 0,
        indeterminateZero.uvPointArray⟩ 0 (0, 1, 2)
      ⟨0, 0⟩ ⟨0, 1⟩ ⟨1, 1⟩ (fun _ => rfl) (by decide!)).2.2.2.2.1 (by decide!)).trans
      (by decide!),
    ((c19_rotation_invariant indeterminateZero quadCW quadFaceRotated
      ⟨[], fillVtxMap quadFaceRotated.getVertices 0 StdMap.empty, [], 0, 0,
        indeterminateZero.uvPointArray⟩ 0 (0, 1, 2)
      ⟨0, 0⟩ ⟨0, 1⟩ ⟨1, 1⟩ (fun _ => rfl) (by decide!)).2.2.2.2.2.1 (by decide!)).trans
      (by decide!)⟩

end MiMaya
